import Mathlib

/-!
# dtek-monitor: schedule normalisation and single-message delivery

A shallow embedding of `src/monitor.js` and `src/helpers.js`.

JavaScript objects parsed from JSON are modelled as finite maps from string
keys to values (`JsObject`); a missing key is `none` (JavaScript `undefined`).
Hour codes are strings, day keys are safe integers (natural numbers below `2 ^ 53`), as
the payload of the data source has them: for these `String(n)` is the decimal numeral of
`n`. A sum of numbers is rounded as a double is (`roundDouble`).
-/

namespace DtekMonitor

/-! ## Data model -/

/-- A JSON object: property lookup by string key, `none` when the key is absent. -/
abbrev JsObject (α : Type) := String → Option α

/-- The values written into `slots`: 'on' | 'off' | 'possible' | 'unknown'. -/
inductive Slot where
  | on
  | off
  | possible
  | unknown
  deriving DecidableEq, Repr

/-- The hour map of one queue: keys "1".."24", values the raw status codes. -/
abbrev HourMap := JsObject String

/-- The per-day structure: queue identifier to hour map. -/
abbrev DayData := JsObject HourMap

/-- The `fact` part of the payload. -/
structure Fact where
  today : Option Nat
  data : Option (JsObject DayData)

/-- A house entry of `info.data`. -/
structure House where
  sub_type_reason : Option (List String)

/-- The payload returned by the data source. -/
structure Response where
  data : Option (JsObject House)
  fact : Option Fact

/-- An interval object `{ start, end, type }` pushed by `parseScheduleIntervals`. -/
structure Interval where
  start : String
  «end» : String
  type : Slot
  deriving DecidableEq, Repr

/-! ## parseScheduleIntervals: the timeline -/

/-- `markHalf`: `slots[(hourIndex - 1) * 2 + half] = value`. -/
def markHalf (slots : List Slot) (hourIndex half : Nat) (value : Slot) : List Slot :=
  slots.set ((hourIndex - 1) * 2 + half) value

/-- `mapValueToSlots`: the `switch` over `(val || "").toString()`. -/
def mapValueToSlots (slots : List Slot) (hourIndex : Nat) (val : Option String) : List Slot :=
  let code := val.getD ""
  if code = "no" then
    markHalf (markHalf slots hourIndex 0 .off) hourIndex 1 .off
  else if code = "yes" then
    markHalf (markHalf slots hourIndex 0 .on) hourIndex 1 .on
  else if code = "first" then
    markHalf (markHalf slots hourIndex 0 .off) hourIndex 1 .on
  else if code = "second" then
    markHalf (markHalf slots hourIndex 0 .on) hourIndex 1 .off
  else if code = "maybe" then
    markHalf (markHalf slots hourIndex 0 .possible) hourIndex 1 .possible
  else if code = "mfirst" then
    markHalf (markHalf slots hourIndex 0 .possible) hourIndex 1 .on
  else if code = "msecond" then
    markHalf (markHalf slots hourIndex 0 .on) hourIndex 1 .possible
  else
    markHalf (markHalf slots hourIndex 0 .unknown) hourIndex 1 .unknown

/-- The timeline: `new Array(48).fill("on")`, then `for (let h = 1; h <= 24; h++)`
reading `hourMap[String(h)]`. -/
def buildTimeline (hourMap : HourMap) : List Slot :=
  (List.range' 1 24).foldl
    (fun slots h => mapValueToSlots slots h (hourMap (toString h)))
    (List.replicate 48 Slot.on)

/-- `s.padStart(2, "0")`: zeros in front up to length 2. -/
def padStart2 (s : String) : String :=
  String.mk (List.replicate (2 - s.length) '0') ++ s

/-- `fmt`: slot index to "HH:MM", the index clamped to at most 48 (an index is a natural
number here, so the clamp at 0 has nothing to do). -/
def fmt (slotIndex : Nat) : String :=
  let slotIndex := if slotIndex > 48 then 48 else slotIndex
  let hour := slotIndex / 2
  let minute := if slotIndex % 2 = 0 then "00" else "30"
  padStart2 (toString hour) ++ ":" ++ minute

/-! ## parseScheduleIntervals: collecting and sorting the intervals -/

/-- The inner loop `while (j < 48 && slots[j] === kind) j++`, returning the final `j`.
`none` when the iteration budget `fuel` is used up before the loop exits. -/
def scanRun (slots : List Slot) (kind : Slot) : Nat → Nat → Option Nat
  | 0, _ => none
  | fuel + 1, j =>
    if j < 48 ∧ slots[j]? = some kind then scanRun slots kind fuel (j + 1) else some j

/-- The outer loop `while (i < 48) { ... }` for one kind, pushing onto `intervals`.
`none` when the iteration budget `fuel` is used up before the loop exits. -/
def collectIntervals (slots : List Slot) (kind : Slot) :
    Nat → Nat → List Interval → Option (List Interval)
  | 0, _, _ => none
  | fuel + 1, i, intervals =>
    if i < 48 then
      if slots[i]? = some kind then
        match scanRun slots kind 48 (i + 1) with
        | none => none
        | some j =>
          collectIntervals slots kind fuel j
            (intervals ++ [{ start := fmt i, «end» := fmt j, type := kind }])
      else collectIntervals slots kind fuel (i + 1) intervals
    else some intervals

/-- JavaScript `<` on two strings: lexicographic on the sequence of characters. -/
def jsLt (a b : String) : Prop := a.toList < b.toList

instance jsLtDecidable (a b : String) : Decidable (jsLt a b) :=
  inferInstanceAs (Decidable (a.toList < b.toList))

/-- The comparator `(a, b) => (a.start > b.start ? 1 : a.start < b.start ? -1 : 0)`. -/
def compareStart (a b : Interval) : Int :=
  if jsLt b.start a.start then 1 else if jsLt a.start b.start then -1 else 0

/-- Whether the comparator lets `a` stand before `b`: its value is not positive. -/
def startLe (a b : Interval) : Prop := compareStart a b ≤ 0

instance startLeDecidable (a b : Interval) : Decidable (startLe a b) :=
  inferInstanceAs (Decidable (compareStart a b ≤ 0))

/-- `intervals.sort(compareStart)`: the sort of the language is stable. -/
def sortByStart (intervals : List Interval) : List Interval :=
  intervals.insertionSort startLe

/-- The two collecting loops ('off', then 'possible', onto the same array) and the sort. -/
def mergeIntervals (slots : List Slot) : Option (List Interval) :=
  match collectIntervals slots .off 49 0 [] with
  | none => none
  | some offs =>
    match collectIntervals slots .possible 49 0 offs with
    | none => none
    | some intervals => some (sortByStart intervals)

/-- The guards at the head of `parseScheduleIntervals`: `response.fact.today` must be
truthy, then `response.fact.data[String(today)][scheduleId]` is the hour map. -/
def lookupHourMap (response : Option Response) (scheduleId : String) : Option HourMap :=
  match response with
  | none => none
  | some r =>
    match r.fact with
    | none => none
    | some fact =>
      match fact.today with
      | none => none
      | some today =>
        if today = 0 then none
        else
          match fact.data with
          | none => none
          | some data =>
            match data (toString today) with
            | none => none
            | some dayData => dayData scheduleId

/-- `parseScheduleIntervals(response, scheduleId)`. The result is `none` only if a loop
ran out of its iteration budget. -/
def parseScheduleIntervals (response : Option Response) (scheduleId : String) :
    Option (List Interval) :=
  match lookupHourMap response scheduleId with
  | none => some []
  | some hourMap => mergeIntervals (buildTimeline hourMap)

/-! ## formatScheduleIntervals -/

/-- `formatScheduleIntervals(intervals, hasData)`; `intervals` may be missing (`none`). -/
def formatScheduleIntervals (intervals : Option (List Interval)) (hasData : Bool) : String :=
  if !hasData then "⏳ Дані на наступний день будуть доступні пізніше"
  else
    match intervals with
    | none => "✅ Відключень не заплановано"
    | some intervals =>
      if intervals.length = 0 then "✅ Відключень не заплановано"
      else
        let offIntervals := intervals.filter (fun i => decide (i.type = Slot.off))
        let possibleIntervals := intervals.filter (fun i => decide (i.type = Slot.possible))
        let result := ""
        let result :=
          if offIntervals.length > 0 then
            result ++ String.intercalate "\n"
              (offIntervals.map (fun i => "🪫 " ++ i.start ++ " — " ++ i.«end»))
          else result
        let result :=
          if possibleIntervals.length > 0 then
            (if result ≠ "" then result ++ "\n" else result) ++ String.intercalate "\n"
              (possibleIntervals.map
                (fun i => "❓ " ++ i.start ++ " — " ++ i.«end» ++ " (можливо)"))
          else result
        if result ≠ "" then result else "✅ Відключень не заплановано"

/-! ## generateMessage -/

/-- What `generateMessage` reads besides the payload: the constants `CITY`, `STREET`,
`HOUSE` of `constants.js`, the value of `getCurrentTime()` and the two date labels
`formatDate(today)`, `formatDate(tomorrow)`. -/
structure Env where
  CITY : String
  STREET : String
  HOUSE : String
  updateTime : String
  todayLabel : String
  tomorrowLabel : String

/-- `getQueueFromGraph(info)`. -/
def getQueueFromGraph (HOUSE : String) (info : Option Response) : String :=
  let houseData := (info.bind (fun r => r.data)).bind (fun d => d HOUSE)
  match houseData.bind (fun h => h.sub_type_reason) with
  | none => "Невідомо"
  | some reasons =>
    if reasons.length = 0 then "Невідомо" else String.intercalate ", " reasons

/-- The double nearest to the natural number `n`, ties to the even significand: the value
a number operation returns for the exact result `n`. Below `2 ^ 53` it is `n` itself; from
there on doubles are the multiples of `2 ^ (Nat.log2 n - 52)`. -/
def roundDouble (n : Nat) : Nat :=
  if n < 2 ^ 53 then n
  else
    let ulp := 2 ^ (Nat.log2 n - 52)
    let q := n / ulp
    let r := n % ulp
    if 2 * r < ulp then q * ulp
    else if ulp < 2 * r then (q + 1) * ulp
    else if q % 2 = 0 then q * ulp
    else (q + 1) * ulp

/-- The number behind `tomorrowKey`: `Number(info.fact.today) + 86400`, a sum of doubles,
when `info.fact?.today` is truthy; `tomorrowKey` is its `String(...)`, `none` stands for
`null`. -/
def tomorrowKeyNumber (info : Response) : Option Nat :=
  match info.fact.bind (fun f => f.today) with
  | none => none
  | some today => if today = 0 then none else some (roundDouble (today + 86400))

/-- `tomorrowData = tomorrowKey && info.fact?.data?.[tomorrowKey]`. -/
def tomorrowData (info : Response) : Option DayData :=
  match tomorrowKeyNumber info with
  | none => none
  | some n => (info.fact.bind (fun f => f.data)).bind (fun d => d (toString n))

/-- The object `tomorrowResponse` for the hour map `hourMap = tomorrowData[queue]`;
`Number(tomorrowKey)` is the number `n` whose string `tomorrowKey` is. -/
def tomorrowResponse (n : Nat) (queue : String) (hourMap : HourMap) : Response :=
  { data := none
    fact := some
      { today := some n
        data := some (fun k =>
          if k = toString n then
            some (fun q => if q = queue then some hourMap else none)
          else none) } }

/-- `tomorrowIntervals`: `[]` unless `hasTomorrowData && tomorrowData[queue]`. -/
def tomorrowIntervals (info : Response) (queue : String) : Option (List Interval) :=
  match tomorrowKeyNumber info, tomorrowData info with
  | some n, some dayData =>
    match dayData queue with
    | some hourMap => parseScheduleIntervals (some (tomorrowResponse n queue hourMap)) queue
    | none => some []
  | _, _ => some []

/-- `tomorrowText`: the tomorrow section of the message. -/
def tomorrowText (info : Response) (queue : String) : Option String :=
  match tomorrowIntervals info queue with
  | none => none
  | some intervals =>
    if (tomorrowData info).isSome then
      some (formatScheduleIntervals (some intervals) true)
    else
      some "⏳ Графік на завтра ще не доступний (зазвичай з\x27являється ввечері)"

/-- The array of lines of `generateMessage`, filtered and joined. -/
def composeMessage (env : Env) (queue todayText tomorrowText : String) : String :=
  let address := env.CITY ++ ", " ++ env.STREET ++ ", " ++ env.HOUSE
  let separator := String.mk (List.replicate 50 '═')
  String.intercalate "\n"
    ([ "⚡️ <b>Статус електропостачання</b>",
       "🏠 <b>Адреса:</b> " ++ address,
       "🔢 <b>Черга:</b> " ++ queue,
       "",
       separator,
       "",
       "📅 <b>Графік на сьогодні (" ++ env.todayLabel ++ "):</b>",
       "",
       todayText,
       "",
       separator,
       "",
       "📅 <b>Графік на завтра (" ++ env.tomorrowLabel ++ "):</b>",
       "",
       tomorrowText,
       "",
       separator,
       "",
       "🕐 <i>Оновлено: " ++ env.updateTime ++ "</i>" ].filter (fun line => line ≠ ""))

/-- `generateMessage(info)`: `.error` is the thrown error; the outer `none` only if a loop
of `parseScheduleIntervals` ran out of its iteration budget. -/
def generateMessage (env : Env) (info : Option Response) : Option (Except String String) :=
  match info with
  | none => some (.error "❌ Power outage info missed.")
  | some r =>
    match r.data with
    | none => some (.error "❌ Power outage info missed.")
    | some _ =>
      let queue := getQueueFromGraph env.HOUSE info
      match parseScheduleIntervals info queue, tomorrowText r queue with
      | some todayIntervals, some tomorrowText =>
        some (.ok (composeMessage env queue
          (formatScheduleIntervals (some todayIntervals) true) tomorrowText))
      | _, _ => none

/-! ## helpers.js: the last-message record -/

/-- The record kept in a last-message file: `{ message_id, date }`; a key may be missing. -/
structure LastMessage where
  message_id : Option Nat
  date : Option Nat
  deriving DecidableEq, Repr

/-- The files of the directory of `LAST_MESSAGE_FILE`, by file name; `none`: no such file. -/
abbrev Files := String → Option LastMessage

/-- `fileName`: "last-message-<chatId>.json" for a truthy `chatId`, else
"last-message.json". -/
def fileName (chatId : Option String) : String :=
  match chatId with
  | none => "last-message.json"
  | some c => if c = "" then "last-message.json" else "last-message-" ++ c ++ ".json"

/-- `deleteLastMessage(chatId)`. -/
def deleteLastMessage (chatId : Option String) (files : Files) : Files :=
  fun name => if name = fileName chatId then none else files name

/-- `saveLastMessage({ date, message_id }, chatId)`. -/
def saveLastMessage (result : LastMessage) (chatId : Option String) (files : Files) : Files :=
  fun name =>
    if name = fileName chatId then
      some { message_id := result.message_id, date := result.date }
    else files name

/-- `loadLastMessage(chatId)` at time `now` (milliseconds); `kyivDate` is
`toLocaleDateString("en-CA", { timeZone: "Europe/Kyiv" })` of a time in milliseconds.
Returns the loaded record (`none` for `null`) and the files afterwards. -/
def loadLastMessage (kyivDate : Nat → String) (now : Nat) (chatId : Option String)
    (files : Files) : Option LastMessage × Files :=
  match files (fileName chatId) with
  | none => (none, files)
  | some lastMessage =>
    match lastMessage.date with
    | none => (some lastMessage, files)
    | some date =>
      if date ≠ 0 ∧ jsLt (kyivDate (date * 1000)) (kyivDate now) then
        (none, deleteLastMessage chatId files)
      else (some lastMessage, files)

/-! ## sendNotification -/

/-- The two Telegram methods. -/
inductive Endpoint where
  | editMessageText
  | sendMessage
  deriving DecidableEq, Repr

/-- The request of `sendNotification`: the endpoint of the URL and the JSON body. -/
structure Request where
  endpoint : Endpoint
  chat_id : String
  text : String
  parse_mode : String
  message_id : Option Nat
  deriving DecidableEq, Repr

/-- The parsed body `data` of a response: `data.ok`, `data.result` (when truthy, with the
keys `saveLastMessage` reads) and `data.description`. -/
structure Body where
  ok : Bool
  result : Option LastMessage
  description : Option String
  deriving DecidableEq, Repr

/-- What `fetch` and `response.json()` give: an exception, or `response.ok` and the body. -/
inductive FetchOutcome where
  | thrown (message : String)
  | response (ok : Bool) (data : Body)
  deriving DecidableEq, Repr

/-- What `sendNotification` reads from outside: the constants `TELEGRAM_BOT_TOKEN` and
`TELEGRAM_CHAT_ID`, and the date formatting of the runtime. -/
structure World where
  TELEGRAM_BOT_TOKEN : String
  TELEGRAM_CHAT_ID : String
  kyivDate : Nat → String

/-- One run of `sendNotification`: the time, the message, and what the transport answers. -/
structure Run where
  now : Nat
  message : String
  fetch : Request → FetchOutcome

/-- The trace of one run: the error thrown (or none), the files afterwards, and the request
made, if the run got that far. -/
structure SendResult where
  outcome : Except String Unit
  files : Files
  request : Option Request

/-- `sendNotification(message)`. -/
def sendNotification (w : World) (run : Run) (files : Files) : SendResult :=
  if w.TELEGRAM_BOT_TOKEN = "" then
    { outcome := .error "❌ Missing telegram bot token or chat id.", files := files,
      request := none }
  else if w.TELEGRAM_CHAT_ID = "" then
    { outcome := .error "❌ Missing telegram chat id.", files := files, request := none }
  else
    let loaded := loadLastMessage w.kyivDate run.now none files
    let lastMessage : LastMessage := loaded.1.getD { message_id := none, date := none }
    let endpoint :=
      match lastMessage.message_id with
      | some id => if id ≠ 0 then Endpoint.editMessageText else Endpoint.sendMessage
      | none => Endpoint.sendMessage
    let request : Request :=
      { endpoint := endpoint, chat_id := w.TELEGRAM_CHAT_ID, text := run.message,
        parse_mode := "HTML", message_id := lastMessage.message_id }
    match run.fetch request with
    | .thrown message =>
      { outcome := .error message, files := deleteLastMessage none loaded.2,
        request := some request }
    | .response ok data =>
      if !ok then
        { outcome := .error ("Telegram API error: " ++ data.description.getD "undefined"),
          files := deleteLastMessage none loaded.2, request := some request }
      else
        match data.ok, data.result with
        | true, some result =>
          { outcome := .ok (), files := saveLastMessage result none loaded.2,
            request := some request }
        | _, _ =>
          { outcome := .error "Unexpected Telegram API response",
            files := deleteLastMessage none loaded.2, request := some request }

/-- A sequence of runs, each starting from the files the run before it left. -/
def runAll (w : World) : List Run → Files → List SendResult
  | [], _ => []
  | run :: rest, files =>
    sendNotification w run files :: runAll w rest (sendNotification w run files).files

/-- The run made a successful `sendMessage` call: it created a new message. -/
def SendResult.created (r : SendResult) : Bool :=
  match r.outcome, r.request with
  | .ok _, some request => decide (request.endpoint = Endpoint.sendMessage)
  | _, _ => false

/-- The run made a successful `editMessageText` call. -/
def SendResult.edited (r : SendResult) : Bool :=
  match r.outcome, r.request with
  | .ok _, some request => decide (request.endpoint = Endpoint.editMessageText)
  | _, _ => false

/-- The run threw. -/
def SendResult.failed (r : SendResult) : Bool :=
  match r.outcome with
  | .ok _ => false
  | .error _ => true

/-! ## Definitions used to state the results -/

/-- The pair of half-hour statuses that `mapValueToSlots` writes for a value. -/
def halfPair (val : Option String) : Slot × Slot :=
  let code := val.getD ""
  if code = "no" then (.off, .off)
  else if code = "yes" then (.on, .on)
  else if code = "first" then (.off, .on)
  else if code = "second" then (.on, .off)
  else if code = "maybe" then (.possible, .possible)
  else if code = "mfirst" then (.possible, .on)
  else if code = "msecond" then (.on, .possible)
  else (.unknown, .unknown)

/-- Slots `s .. e - 1` form a maximal run of `kind` in `slots`. -/
def IsRun (slots : List Slot) (kind : Slot) (s e : Nat) : Prop :=
  s < e ∧ e ≤ 48 ∧ (∀ k, s ≤ k → k < e → slots[k]? = some kind) ∧
    (s = 0 ∨ slots[s - 1]? ≠ some kind) ∧ (e < 48 → slots[e]? ≠ some kind)

/-- The interval object pushed for the run `p = (start, j)`. -/
def toInterval (kind : Slot) (p : Nat × Nat) : Interval :=
  { start := fmt p.1, «end» := fmt p.2, type := kind }

/-- The list `R` holds, in ascending order, exactly the maximal runs of `kind` that begin
at slot `i` or later. -/
structure RunList (slots : List Slot) (kind : Slot) (i : Nat) (R : List (Nat × Nat)) :
    Prop where
  runs : ∀ p ∈ R, i ≤ p.1 ∧ IsRun slots kind p.1 p.2
  ordered : R.Pairwise (fun p q => p.2 ≤ q.1)
  complete : ∀ k, i ≤ k → k < 48 → slots[k]? = some kind → ∃ p ∈ R, p.1 ≤ k ∧ k < p.2

/-- The last-message file of `sendNotification` names a message (a truthy `message_id`)
whose `date`, if any, falls on the Kyiv date `day`. -/
def Active (w : World) (day : String) (files : Files) : Prop :=
  ∃ last id, files (fileName none) = some last ∧ last.message_id = some id ∧ id ≠ 0 ∧
    ∀ d, last.date = some d → w.kyivDate (d * 1000) = day

/-- The slot index that `fmt` writes as `time`: the first index 0..48 with that string
(0 when there is none). -/
def slotOf (time : String) : Nat :=
  ((List.range 49).find? (fun i => decide (fmt i = time))).getD 0

/-! ## Sample inputs -/

/-- An hour map: hour 1 "first", hour 2 "second", every other key "yes". -/
def sampleFirstSecond : HourMap := fun k =>
  if k = "1" then some "first" else if k = "2" then some "second" else some "yes"

/-- A payload whose day 1762380000 has, for queue GPV5.1, the hour map `hourMap`. -/
def samplePayload (hourMap : HourMap) : Response :=
  { data := some (fun _ => none)
    fact := some
      { today := some 1762380000
        data := some (fun k =>
          if k = "1762380000" then
            some (fun q => if q = "GPV5.1" then some hourMap else none)
          else none) } }

/-- The hour map with "no" under every key. -/
def sampleAllNo : HourMap := fun _ => some "no"

/-- The hour map with "yes" under every key. -/
def sampleAllYes : HourMap := fun _ => some "yes"

/-- A payload with the house "12" in queue GPV5.1, the day 1762380000 with an hour map
for GPV5.1, and the next day 1762466400 with an hour map for queue GPV1.1 only. -/
def sampleTomorrowOtherQueue : Response :=
  { data := some (fun k =>
      if k = "12" then some { sub_type_reason := some ["GPV5.1"] } else none)
    fact := some
      { today := some 1762380000
        data := some (fun k =>
          if k = "1762380000" then
            some (fun q => if q = "GPV5.1" then some sampleAllYes else none)
          else if k = "1762466400" then
            some (fun q => if q = "GPV1.1" then some sampleAllNo else none)
          else none) } }

/-- The same payload without the next day: only the day 1762380000 is present. -/
def sampleTodayOnly : Response :=
  { data := some (fun k =>
      if k = "12" then some { sub_type_reason := some ["GPV5.1"] } else none)
    fact := some
      { today := some 1762380000
        data := some (fun k =>
          if k = "1762380000" then
            some (fun q => if q = "GPV5.1" then some sampleAllYes else none)
          else none) } }

/-- Constants and labels for the sample messages. -/
def sampleEnv : Env :=
  { CITY := "м. Київ", STREET := "вул. Хрещатик", HOUSE := "12",
    updateTime := "10:00 06.11.2025", todayLabel := "06.11", tomorrowLabel := "07.11" }

/-- The Kyiv date around 6 November 2025 (UTC+2): that day begins at 1762380000000 ms. -/
def sampleKyivDate (ms : Nat) : String :=
  if ms < 1762380000000 then "2025-11-05"
  else if ms < 1762466400000 then "2025-11-06"
  else "2025-11-07"

/-- Sample constants of the Telegram bot. -/
def sampleWorld : World :=
  { TELEGRAM_BOT_TOKEN := "token", TELEGRAM_CHAT_ID := "100", kyivDate := sampleKyivDate }

/-- The transport accepts the call and reports message 77, sent at 1762416000. -/
def fetchOk (_ : Request) : FetchOutcome :=
  .response true
    { ok := true, result := some { message_id := some 77, date := some 1762416000 },
      description := none }

/-- The transport refuses the call with a non-success response. -/
def fetchRefused (_ : Request) : FetchOutcome :=
  .response false
    { ok := false, result := none,
      description := some "Bad Request: message is not modified" }

/-- The transport accepts the call and reports message 78, sent at 1762423200. -/
def fetchOkNext (_ : Request) : FetchOutcome :=
  .response true
    { ok := true, result := some { message_id := some 78, date := some 1762423200 },
      description := none }

/-- Three runs on 6 November 2025, Kyiv time: accepted, refused, accepted. -/
def sampleRuns : List Run :=
  [ { now := 1762416000000, message := "a", fetch := fetchOk },
    { now := 1762419600000, message := "a", fetch := fetchRefused },
    { now := 1762423200000, message := "b", fetch := fetchOkNext } ]

/-- Two accepted runs on 6 November 2025, Kyiv time. -/
def sampleRunsOk : List Run :=
  [ { now := 1762416000000, message := "a", fetch := fetchOk },
    { now := 1762419600000, message := "b", fetch := fetchOk } ]

/-- No last-message file. -/
def noFiles : Files := fun _ => none

/-- Only the file "last-message.json", holding `last`. -/
def filesWith (last : LastMessage) : Files :=
  fun name => if name = "last-message.json" then some last else none

/-- A run on 6 November 2025, Kyiv time, that the transport refuses. -/
def sampleRunRefused : Run :=
  { now := 1762419600000, message := "a", fetch := fetchRefused }

/-- A run on 6 November 2025, Kyiv time, that the transport accepts, reporting message 77. -/
def sampleRunOk : Run :=
  { now := 1762419600000, message := "a", fetch := fetchOk }

/-- A run on 6 November 2025, Kyiv time, that the transport accepts, reporting message 78. -/
def sampleRunOkNext : Run :=
  { now := 1762423200000, message := "b", fetch := fetchOkNext }

/-- Intervals in the order 02:00 possible, 03:00 off, 08:00 possible. -/
def sampleIntervals : List Interval :=
  [ { start := "02:00", «end» := "03:00", type := .possible },
    { start := "03:00", «end» := "04:00", type := .off },
    { start := "08:00", «end» := "08:30", type := .possible } ]

/-- A payload with no house entry whose day 1762380000 has an hour map, all "no", under
the key "Невідомо". -/
def samplePlaceholderQueue : Response :=
  { data := some (fun _ => none)
    fact := some
      { today := some 1762380000
        data := some (fun k =>
          if k = "1762380000" then
            some (fun q => if q = "Невідомо" then some sampleAllNo else none)
          else none) } }

/-- A payload with both days: GPV5.1 is all "yes" today and "first", "second", "yes"
tomorrow. -/
def sampleBothDays : Response :=
  { data := some (fun k =>
      if k = "12" then some { sub_type_reason := some ["GPV5.1"] } else none)
    fact := some
      { today := some 1762380000
        data := some (fun k =>
          if k = "1762380000" then
            some (fun q => if q = "GPV5.1" then some sampleAllYes else none)
          else if k = "1762466400" then
            some (fun q => if q = "GPV5.1" then some sampleFirstSecond else none)
          else none) } }

/-- The Kyiv date of a time in milliseconds: 1 January 1970 at time 0, 1 January 10000 at
253402300800000 ms (02:00 of that day in Kyiv), which "en-CA" writes with a year of five
digits, else as `sampleKyivDate`. -/
def sampleKyivDateEpoch (ms : Nat) : String :=
  if ms = 0 then "1970-01-01"
  else if ms = 253402300800000 then "10000-01-01"
  else sampleKyivDate ms

/-! # Theorems -/

/-! ## The timeline in closed form -/

theorem mapValueToSlots_eq (slots : List Slot) (h : Nat) (val : Option String) :
    mapValueToSlots slots h val =
      markHalf (markHalf slots h 0 (halfPair val).1) h 1 (halfPair val).2 := by
  unfold mapValueToSlots halfPair
  simp only []
  split_ifs <;> rfl

theorem buildTimeline_eq (hourMap : HourMap) :
    buildTimeline hourMap =
      (List.range 24).flatMap
        (fun k => [(halfPair (hourMap (toString (k + 1)))).1,
                   (halfPair (hourMap (toString (k + 1)))).2]) := by
  unfold buildTimeline
  simp only [mapValueToSlots_eq]
  simp [List.range', markHalf, List.replicate, List.range, List.range.loop, List.flatMap]

theorem buildTimeline_length (hourMap : HourMap) : (buildTimeline hourMap).length = 48 := by
  rw [buildTimeline_eq]; rfl

theorem buildTimeline_getElem? (hourMap : HourMap) (h : Nat) (h1 : 1 ≤ h) (h24 : h ≤ 24) :
    (buildTimeline hourMap)[2 * (h - 1)]? = some (halfPair (hourMap (toString h))).1 ∧
    (buildTimeline hourMap)[2 * (h - 1) + 1]? = some (halfPair (hourMap (toString h))).2 := by
  rw [buildTimeline_eq]
  interval_cases h <;> exact ⟨rfl, rfl⟩

/-! ## The collecting loops: what they return -/

theorem scanRun_spec (slots : List Slot) (kind : Slot) :
    ∀ fuel j, j ≤ 48 → 48 - j < fuel →
      ∃ e, scanRun slots kind fuel j = some e ∧ j ≤ e ∧ e ≤ 48 ∧
        (∀ k, j ≤ k → k < e → slots[k]? = some kind) ∧
        (e < 48 → slots[e]? ≠ some kind) := by
  intro fuel
  induction fuel with
  | zero => intro j _ h; omega
  | succ fuel ih =>
    intro j hj hf
    unfold scanRun
    by_cases hc : j < 48 ∧ slots[j]? = some kind
    · rw [if_pos hc]
      obtain ⟨e, he, h1, h2, h3, h4⟩ := ih (j + 1) (by omega) (by omega)
      refine ⟨e, he, by omega, h2, ?_, h4⟩
      intro k hk1 hk2
      by_cases hkj : k = j
      · subst hkj; exact hc.2
      · exact h3 k (by omega) hk2
    · rw [if_neg hc]
      refine ⟨j, rfl, le_refl _, hj, ?_, ?_⟩
      · intro k h1 h2; omega
      · intro h48 hk; exact hc ⟨h48, hk⟩

theorem collectIntervals_spec (slots : List Slot) (kind : Slot) :
    ∀ fuel i acc, i ≤ 48 → 48 - i < fuel →
      (i < 48 → slots[i]? = some kind → i = 0 ∨ slots[i - 1]? ≠ some kind) →
      ∃ R, collectIntervals slots kind fuel i acc = some (acc ++ R.map (toInterval kind)) ∧
        RunList slots kind i R := by
  intro fuel
  induction fuel with
  | zero => intro i _ _ h; omega
  | succ fuel ih =>
    intro i acc hi hf hpre
    unfold collectIntervals
    by_cases h48 : i < 48
    · rw [if_pos h48]
      by_cases hk : slots[i]? = some kind
      · rw [if_pos hk]
        obtain ⟨e, he, h1, h2, h3, h4⟩ := scanRun_spec slots kind 48 (i + 1) (by omega) (by omega)
        rw [he]
        obtain ⟨R, hR, hl⟩ := ih e (acc ++ [{ start := fmt i, «end» := fmt e, type := kind }])
          h2 (by omega) (fun h hs => absurd hs (h4 h))
        refine ⟨(i, e) :: R, ?_, ?_, ?_, ?_⟩
        · simp only [hR, List.map_cons, toInterval, List.append_assoc, List.singleton_append]
        · intro p hp
          rcases List.mem_cons.1 hp with rfl | hp
          · refine ⟨le_refl _, by omega, h2, ?_, hpre h48 hk, h4⟩
            intro k hk1 hk2
            by_cases hki : k = i
            · subst hki; exact hk
            · exact h3 k (by omega) hk2
          · exact ⟨by have := (hl.runs p hp).1; omega, (hl.runs p hp).2⟩
        · exact List.pairwise_cons.2 ⟨fun q hq => (hl.runs q hq).1, hl.ordered⟩
        · intro k hk1 hk2 hks
          by_cases hke : k < e
          · exact ⟨(i, e), List.mem_cons_self _ _, hk1, hke⟩
          · obtain ⟨p, hp, hp1⟩ := hl.complete k (by omega) hk2 hks
            exact ⟨p, List.mem_cons_of_mem _ hp, hp1⟩
      · rw [if_neg hk]
        obtain ⟨R, hR, hl⟩ := ih (i + 1) acc (by omega) (by omega)
          (fun _ _ => Or.inr (by simpa using hk))
        refine ⟨R, hR, ?_, hl.ordered, ?_⟩
        · intro p hp
          exact ⟨by have := (hl.runs p hp).1; omega, (hl.runs p hp).2⟩
        · intro k hk1 hk2 hks
          have hne : k ≠ i := by rintro rfl; exact hk hks
          exact hl.complete k (by omega) hk2 hks
    · rw [if_neg h48]
      refine ⟨[], by simp, ?_, List.Pairwise.nil, ?_⟩
      · intro p hp; cases hp
      · intro k hk1 hk2; omega

theorem mergeIntervals_spec (slots : List Slot) :
    ∃ Roff Rposs,
      mergeIntervals slots =
        some (sortByStart (Roff.map (toInterval .off) ++ Rposs.map (toInterval .possible))) ∧
      RunList slots .off 0 Roff ∧ RunList slots .possible 0 Rposs := by
  obtain ⟨Roff, h1, l1⟩ := collectIntervals_spec slots .off 49 0 [] (by omega) (by omega)
    (fun _ _ => Or.inl rfl)
  obtain ⟨Rposs, h2, l2⟩ := collectIntervals_spec slots .possible 49 0
    ([] ++ Roff.map (toInterval .off)) (by omega) (by omega) (fun _ _ => Or.inl rfl)
  refine ⟨Roff, Rposs, ?_, l1, l2⟩
  rw [List.nil_append] at h1 h2
  unfold mergeIntervals
  simp only [h1, h2]

/-! ## The formatter `fmt` and the sort -/

theorem fmt_lt_iff_fin : ∀ i j : Fin 49, ((i : Nat) < j ↔ jsLt (fmt i) (fmt j)) := by
  decide

theorem fmt_inj_fin : ∀ i j : Fin 49, fmt i = fmt j → i = j := by
  decide

theorem fmt_lt_iff (i j : Nat) (hi : i ≤ 48) (hj : j ≤ 48) :
    i < j ↔ jsLt (fmt i) (fmt j) :=
  fmt_lt_iff_fin ⟨i, by omega⟩ ⟨j, by omega⟩

theorem fmt_inj (i j : Nat) (hi : i ≤ 48) (hj : j ≤ 48) (h : fmt i = fmt j) : i = j := by
  have := fmt_inj_fin ⟨i, by omega⟩ ⟨j, by omega⟩ h
  exact congrArg Fin.val this

theorem jsLt_iff (a b : String) : jsLt a b ↔ a < b :=
  String.lt_iff_toList_lt.symm

theorem startLe_iff (a b : Interval) : startLe a b ↔ a.start ≤ b.start := by
  unfold startLe compareStart
  split_ifs with h1 h2
  · rw [jsLt_iff] at h1
    simp [not_le.2 h1]
  · rw [jsLt_iff] at h2
    simp [le_of_lt h2]
  · rw [jsLt_iff] at h1
    simp [not_lt.1 h1]

theorem startLe_total : IsTotal Interval startLe :=
  ⟨fun a b => by rw [startLe_iff, startLe_iff]; exact le_total _ _⟩

theorem startLe_trans : IsTrans Interval startLe :=
  ⟨fun a b c => by rw [startLe_iff, startLe_iff, startLe_iff]; exact le_trans⟩

theorem mem_sortByStart (iv : Interval) (l : List Interval) :
    iv ∈ sortByStart l ↔ iv ∈ l :=
  (List.perm_insertionSort startLe l).mem_iff

/-- Sorting a list whose starts are pairwise different gives strictly ascending starts. -/
theorem sortByStart_strict (l : List Interval)
    (h : l.Pairwise (fun a b => a.start ≠ b.start)) :
    (sortByStart l).Pairwise (fun a b => jsLt a.start b.start) := by
  haveI := startLe_total
  haveI := startLe_trans
  have hs : (sortByStart l).Pairwise startLe := List.sorted_insertionSort startLe l
  have hn : (sortByStart l).Pairwise (fun a b => a.start ≠ b.start) :=
    ((List.perm_insertionSort startLe l).pairwise_iff (fun h => Ne.symm h)).2 h
  refine (hs.and hn).imp ?_
  intro a b hab
  rw [jsLt_iff]
  exact lt_of_le_of_ne ((startLe_iff a b).1 hab.1) hab.2


/-! ## parseScheduleIntervals: what it returns -/

theorem parseScheduleIntervals_spec (response : Option Response) (scheduleId : String) :
    (lookupHourMap response scheduleId = none ∧
      parseScheduleIntervals response scheduleId = some []) ∨
    ∃ hourMap Roff Rposs,
      lookupHourMap response scheduleId = some hourMap ∧
      parseScheduleIntervals response scheduleId =
        some (sortByStart
          (Roff.map (toInterval .off) ++ Rposs.map (toInterval .possible))) ∧
      RunList (buildTimeline hourMap) .off 0 Roff ∧
      RunList (buildTimeline hourMap) .possible 0 Rposs := by
  unfold parseScheduleIntervals
  cases hl : lookupHourMap response scheduleId with
  | none => exact Or.inl ⟨rfl, rfl⟩
  | some hourMap =>
    obtain ⟨Roff, Rposs, h, l1, l2⟩ := mergeIntervals_spec (buildTimeline hourMap)
    exact Or.inr ⟨hourMap, Roff, Rposs, rfl, h, l1, l2⟩

theorem mem_runs (slots : List Slot) (Roff Rposs : List (Nat × Nat))
    (l1 : RunList slots .off 0 Roff) (l2 : RunList slots .possible 0 Rposs)
    (iv : Interval)
    (h : iv ∈ Roff.map (toInterval .off) ++ Rposs.map (toInterval .possible)) :
    ∃ kind s e, (kind = Slot.off ∨ kind = Slot.possible) ∧
      iv = toInterval kind (s, e) ∧ IsRun slots kind s e := by
  rcases List.mem_append.1 h with h | h
  · obtain ⟨p, hp, rfl⟩ := List.mem_map.1 h
    exact ⟨.off, p.1, p.2, Or.inl rfl, rfl, (l1.runs p hp).2⟩
  · obtain ⟨p, hp, rfl⟩ := List.mem_map.1 h
    exact ⟨.possible, p.1, p.2, Or.inr rfl, rfl, (l2.runs p hp).2⟩

theorem runList_starts (slots : List Slot) (kind : Slot) (R : List (Nat × Nat))
    (l : RunList slots kind 0 R) : R.Pairwise (fun p q => fmt p.1 ≠ fmt q.1) := by
  refine l.ordered.imp_of_mem ?_
  intro p q hp hq hpq hf
  obtain ⟨_, hp1, hp2, _⟩ := l.runs p hp
  obtain ⟨_, hq1, hq2, _⟩ := l.runs q hq
  have := fmt_inj p.1 q.1 (by omega) (by omega) hf
  omega

theorem starts_distinct (slots : List Slot) (Roff Rposs : List (Nat × Nat))
    (l1 : RunList slots .off 0 Roff) (l2 : RunList slots .possible 0 Rposs) :
    (Roff.map (toInterval .off) ++ Rposs.map (toInterval .possible)).Pairwise
      (fun a b => a.start ≠ b.start) := by
  rw [List.pairwise_append, List.pairwise_map, List.pairwise_map]
  refine ⟨runList_starts slots _ Roff l1, runList_starts slots _ Rposs l2, ?_⟩
  intro a ha b hb hf
  obtain ⟨p, hp, rfl⟩ := List.mem_map.1 ha
  obtain ⟨q, hq, rfl⟩ := List.mem_map.1 hb
  obtain ⟨_, hp1, hp2, hp3, _⟩ := l1.runs p hp
  obtain ⟨_, hq1, hq2, hq3, _⟩ := l2.runs q hq
  have he : p.1 = q.1 := fmt_inj p.1 q.1 (by omega) (by omega) hf
  have h1 := hp3 p.1 (le_refl _) hp1
  have h2 := hq3 q.1 (le_refl _) hq1
  rw [he, h2] at h1
  cases h1

/-! ## Which codes give an outage slot -/

theorem buildTimeline_slot (hourMap : HourMap) (k : Nat) (hk : k < 48) :
    (buildTimeline hourMap)[k]? =
      some (if k % 2 = 0 then (halfPair (hourMap (toString (k / 2 + 1)))).1
            else (halfPair (hourMap (toString (k / 2 + 1)))).2) := by
  obtain ⟨h1, h2⟩ := buildTimeline_getElem? hourMap (k / 2 + 1) (by omega) (by omega)
  by_cases hp : k % 2 = 0
  · rw [if_pos hp, ← h1]; congr 1; omega
  · rw [if_neg hp, ← h2]; congr 1; omega

theorem buildTimeline_congr (hm1 hm2 : HourMap)
    (h : ∀ n, 1 ≤ n → n ≤ 24 → hm1 (toString n) = hm2 (toString n)) :
    buildTimeline hm1 = buildTimeline hm2 := by
  apply List.ext_getElem?
  intro k
  by_cases hk : k < 48
  · rw [buildTimeline_slot hm1 k hk, buildTimeline_slot hm2 k hk, h (k / 2 + 1) (by omega) (by omega)]
  · rw [List.getElem?_eq_none (by rw [buildTimeline_length]; omega),
      List.getElem?_eq_none (by rw [buildTimeline_length]; omega)]

theorem halfPair_outage (c : String)
    (hc : c ∈ ["no", "first", "second", "maybe", "mfirst", "msecond"]) :
    ((halfPair (some c)).1 = .off ∨ (halfPair (some c)).1 = .possible) ∨
    ((halfPair (some c)).2 = .off ∨ (halfPair (some c)).2 = .possible) := by
  simp only [List.mem_cons, List.mem_singleton, List.not_mem_nil, or_false] at hc
  rcases hc with rfl | rfl | rfl | rfl | rfl | rfl <;> decide

theorem halfPair_no_outage (v : Option String)
    (hv : ∀ c ∈ ["no", "first", "second", "maybe", "mfirst", "msecond"], v ≠ some c) :
    ((halfPair v).1 ≠ .off ∧ (halfPair v).1 ≠ .possible) ∧
    ((halfPair v).2 ≠ .off ∧ (halfPair v).2 ≠ .possible) := by
  cases v with
  | none => decide
  | some c =>
    have hne : ∀ d ∈ ["no", "first", "second", "maybe", "mfirst", "msecond"], c ≠ d :=
      fun d hd hcd => hv d hd (by rw [hcd])
    simp only [List.mem_cons, List.mem_singleton, List.not_mem_nil, or_false,
      forall_eq_or_imp, forall_eq] at hne
    obtain ⟨n1, n3, n4, n5, n6, n7⟩ := hne
    by_cases hy : c = "yes"
    · subst hy; decide
    · simp [halfPair, n1, n3, n4, n5, n6, n7, hy]

theorem runList_nil_absent (slots : List Slot) (kind : Slot)
    (l : RunList slots kind 0 []) (k : Nat) (hk : k < 48) : slots[k]? ≠ some kind := by
  intro h
  obtain ⟨p, hp, _⟩ := l.complete k (Nat.zero_le _) hk h
  cases hp

theorem runList_eq_nil (slots : List Slot) (kind : Slot) (R : List (Nat × Nat))
    (l : RunList slots kind 0 R) (h : ∀ k, k < 48 → slots[k]? ≠ some kind) : R = [] := by
  rw [List.eq_nil_iff_forall_not_mem]
  intro p hp
  obtain ⟨_, hp1, hp2, hp3, _⟩ := l.runs p hp
  exact h p.1 (by omega) (hp3 p.1 (le_refl _) hp1)

theorem sortByStart_eq_nil (l : List Interval) (h : sortByStart l = []) : l = [] := by
  have hp := List.perm_insertionSort startLe l
  unfold sortByStart at h
  rw [h] at hp
  exact List.Perm.eq_nil hp.symm

/-! ## The claims -/

/-- C1: for every hour map and every hour `h` in 1..24 the timeline has 48 slots, and its
slots `2*(h-1)` and `2*(h-1)+1` hold the pair of the table for the code under key `h`:
no gives off/off, yes on/on, first off/on, second on/off, maybe possible/possible,
mfirst possible/on, msecond on/possible, any other code or an absent key
unknown/unknown. -/
theorem timeline_matches_table (hourMap : HourMap) (h : Nat) (h1 : 1 ≤ h) (h24 : h ≤ 24) :
    (buildTimeline hourMap).length = 48 ∧
    ∃ a b, (buildTimeline hourMap)[2 * (h - 1)]? = some a ∧
      (buildTimeline hourMap)[2 * (h - 1) + 1]? = some b ∧
      (hourMap (toString h) = some "no" → a = .off ∧ b = .off) ∧
      (hourMap (toString h) = some "yes" → a = .on ∧ b = .on) ∧
      (hourMap (toString h) = some "first" → a = .off ∧ b = .on) ∧
      (hourMap (toString h) = some "second" → a = .on ∧ b = .off) ∧
      (hourMap (toString h) = some "maybe" → a = .possible ∧ b = .possible) ∧
      (hourMap (toString h) = some "mfirst" → a = .possible ∧ b = .on) ∧
      (hourMap (toString h) = some "msecond" → a = .on ∧ b = .possible) ∧
      ((∀ c ∈ ["no", "yes", "first", "second", "maybe", "mfirst", "msecond"],
          hourMap (toString h) ≠ some c) → a = .unknown ∧ b = .unknown) := by
  refine ⟨buildTimeline_length hourMap, _, _, (buildTimeline_getElem? hourMap h h1 h24).1,
    (buildTimeline_getElem? hourMap h h1 h24).2, ?_, ?_, ?_, ?_, ?_, ?_, ?_, ?_⟩
  · intro hv; rw [hv]; exact ⟨rfl, rfl⟩
  · intro hv; rw [hv]; exact ⟨rfl, rfl⟩
  · intro hv; rw [hv]; exact ⟨rfl, rfl⟩
  · intro hv; rw [hv]; exact ⟨rfl, rfl⟩
  · intro hv; rw [hv]; exact ⟨rfl, rfl⟩
  · intro hv; rw [hv]; exact ⟨rfl, rfl⟩
  · intro hv; rw [hv]; exact ⟨rfl, rfl⟩
  · intro hv
    cases hc : hourMap (toString h) with
    | none => exact ⟨rfl, rfl⟩
    | some c =>
      rw [hc] at hv
      have hne : ∀ d ∈ ["no", "yes", "first", "second", "maybe", "mfirst", "msecond"],
          c ≠ d := fun d hd hcd => hv d hd (by rw [hcd])
      simp only [List.mem_cons, List.mem_singleton, List.not_mem_nil, or_false,
        forall_eq_or_imp, forall_eq] at hne
      obtain ⟨n1, n2, n3, n4, n5, n6, n7⟩ := hne
      simp [halfPair, n1, n2, n3, n4, n5, n6, n7]

/-- Witness of C1 at the hour map "first", "second", then "yes", and hour 2. -/
theorem timeline_matches_table_witness :
    (buildTimeline sampleFirstSecond).length = 48 ∧
    (buildTimeline sampleFirstSecond)[2]? = some Slot.on ∧
    (buildTimeline sampleFirstSecond)[3]? = some Slot.off := by
  obtain ⟨hl, a, b, ha, hb, _, _, _, h4, _⟩ :=
    timeline_matches_table sampleFirstSecond 2 (by decide) (by decide)
  obtain ⟨rfl, rfl⟩ := h4 (by decide)
  exact ⟨hl, ha, hb⟩

/-- C2: every interval `parseScheduleIntervals` returns has type off or possible, runs
from a start slot `s` in 0..47 to an end slot `e` in 1..48 with `s < e`, and every
timeline slot from `s` up to but excluding `e` holds exactly the type of the interval,
hence neither on nor unknown. -/
theorem intervals_sound (response : Option Response) (scheduleId : String) :
    ∃ ivs, parseScheduleIntervals response scheduleId = some ivs ∧
      ∀ iv ∈ ivs, (iv.type = .off ∨ iv.type = .possible) ∧
        ∃ hourMap s e, lookupHourMap response scheduleId = some hourMap ∧
          iv.start = fmt s ∧ iv.«end» = fmt e ∧ s < e ∧ s ≤ 47 ∧ 1 ≤ e ∧ e ≤ 48 ∧
          ∀ k, s ≤ k → k < e →
            (buildTimeline hourMap)[k]? = some iv.type ∧
            (buildTimeline hourMap)[k]? ≠ some .on ∧
            (buildTimeline hourMap)[k]? ≠ some .unknown := by
  rcases parseScheduleIntervals_spec response scheduleId with ⟨_, h⟩ | ⟨hm, Roff, Rposs, hl, h, l1, l2⟩
  · exact ⟨[], h, fun iv hiv => absurd hiv (List.not_mem_nil _)⟩
  · refine ⟨_, h, ?_⟩
    intro iv hiv
    rw [mem_sortByStart] at hiv
    obtain ⟨kind, s, e, hk, rfl, hse, he, hrun, _⟩ := mem_runs _ Roff Rposs l1 l2 iv hiv
    refine ⟨hk, hm, s, e, hl, rfl, rfl, hse, by omega, by omega, he, ?_⟩
    intro k hk1 hk2
    have := hrun k hk1 hk2
    refine ⟨this, ?_, ?_⟩ <;> rw [this] <;> rcases hk with rfl | rfl <;> simp [toInterval]

/-- C3: the returned intervals are maximal: the end of one is never the start of another of
the same type, the slot just before the start of an interval (if any) and the slot at its
end (if below 48) do not hold the type of the interval. -/
theorem intervals_maximal (response : Option Response) (scheduleId : String) :
    ∃ ivs, parseScheduleIntervals response scheduleId = some ivs ∧
      (∀ a ∈ ivs, ∀ b ∈ ivs, a.type = b.type → a.«end» ≠ b.start) ∧
      ∀ iv ∈ ivs, ∃ hourMap s e, lookupHourMap response scheduleId = some hourMap ∧
        iv.start = fmt s ∧ iv.«end» = fmt e ∧ s < e ∧ e ≤ 48 ∧
        (0 < s → (buildTimeline hourMap)[s - 1]? ≠ some iv.type) ∧
        (e < 48 → (buildTimeline hourMap)[e]? ≠ some iv.type) := by
  rcases parseScheduleIntervals_spec response scheduleId with ⟨_, h⟩ | ⟨hm, Roff, Rposs, hl, h, l1, l2⟩
  · exact ⟨[], h, fun a ha => absurd ha (List.not_mem_nil _),
      fun iv hiv => absurd hiv (List.not_mem_nil _)⟩
  · refine ⟨_, h, ?_, ?_⟩
    · intro a ha b hb hab hf
      rw [mem_sortByStart] at ha hb
      obtain ⟨k, s, e, _, rfl, hse, he, _, _, hr⟩ := mem_runs _ Roff Rposs l1 l2 a ha
      obtain ⟨k2, s2, e2, _, rfl, hse2, he2, hrun2, _, _⟩ := mem_runs _ Roff Rposs l1 l2 b hb
      have hk : k = k2 := hab
      subst hk
      have hes : e = s2 := fmt_inj e s2 he (by omega) hf
      subst hes
      exact hr (by omega) (hrun2 e (le_refl _) hse2)
    · intro iv hiv
      rw [mem_sortByStart] at hiv
      obtain ⟨kind, s, e, hk, rfl, hse, he, _, hleft, hright⟩ := mem_runs _ Roff Rposs l1 l2 iv hiv
      refine ⟨hm, s, e, hl, rfl, rfl, hse, he, ?_, hright⟩
      intro hs
      rcases hleft with h0 | h0
      · omega
      · exact h0

/-- C4: the returned list is in strictly ascending order of the start strings, and this is
the chronological order: `fmt` is strictly order-preserving from the slot indices 0..48 to
strings under lexical comparison, with `fmt 48 = "24:00"`. -/
theorem intervals_sorted :
    (∀ (response : Option Response) (scheduleId : String),
      ∃ ivs, parseScheduleIntervals response scheduleId = some ivs ∧
        ivs.Pairwise (fun a b => jsLt a.start b.start)) ∧
    (∀ i j, i ≤ 48 → j ≤ 48 → (i < j ↔ jsLt (fmt i) (fmt j))) ∧
    fmt 48 = "24:00" := by
  refine ⟨?_, fmt_lt_iff, by decide⟩
  intro response scheduleId
  rcases parseScheduleIntervals_spec response scheduleId with ⟨_, h⟩ | ⟨hm, Roff, Rposs, hl, h, l1, l2⟩
  · exact ⟨[], h, List.Pairwise.nil⟩
  · exact ⟨_, h, sortByStart_strict _ (starts_distinct _ Roff Rposs l1 l2)⟩

/-- C5: when the hour map of the queue has code "no" for every hour 1..24,
`parseScheduleIntervals` returns exactly one interval, 00:00 to 24:00 of type off. -/
theorem all_no_single_interval (response : Option Response) (scheduleId : String)
    (hourMap : HourMap) (hl : lookupHourMap response scheduleId = some hourMap)
    (hno : ∀ h, 1 ≤ h → h ≤ 24 → hourMap (toString h) = some "no") :
    parseScheduleIntervals response scheduleId =
      some [{ start := "00:00", «end» := "24:00", type := .off }] := by
  unfold parseScheduleIntervals
  rw [hl]
  simp only []
  rw [buildTimeline_congr hourMap sampleAllNo (fun n h1 h2 => hno n h1 h2)]
  decide

/-- Witness of C5 at the sample payload with the all-"no" hour map. -/
theorem all_no_single_interval_witness :
    parseScheduleIntervals (some (samplePayload sampleAllNo)) "GPV5.1" =
      some [{ start := "00:00", «end» := "24:00", type := .off }] :=
  all_no_single_interval (some (samplePayload sampleAllNo)) "GPV5.1" sampleAllNo
    rfl (fun _ _ _ => rfl)

/-- C6: when the data of today for the queue is present, `parseScheduleIntervals` returns
the empty list exactly when no hour 1..24 carries one of the codes no, first, second, maybe,
mfirst, msecond; an hour map with "yes" for all 24 hours gives the empty list, and
`formatScheduleIntervals` of it is exactly the no-outages message. -/
theorem empty_iff_no_outage_code (response : Option Response) (scheduleId : String)
    (hourMap : HourMap) (hl : lookupHourMap response scheduleId = some hourMap) :
    (parseScheduleIntervals response scheduleId = some [] ↔
      ∀ h, 1 ≤ h → h ≤ 24 →
        ∀ c ∈ ["no", "first", "second", "maybe", "mfirst", "msecond"],
          hourMap (toString h) ≠ some c) ∧
    ((∀ h, 1 ≤ h → h ≤ 24 → hourMap (toString h) = some "yes") →
      ∃ ivs, parseScheduleIntervals response scheduleId = some ivs ∧ ivs = [] ∧
        formatScheduleIntervals (some ivs) true = "✅ Відключень не заплановано") := by
  have key : parseScheduleIntervals response scheduleId = some [] ↔
      ∀ h, 1 ≤ h → h ≤ 24 →
        ∀ c ∈ ["no", "first", "second", "maybe", "mfirst", "msecond"],
          hourMap (toString h) ≠ some c := by
    rcases parseScheduleIntervals_spec response scheduleId with
      ⟨hn, _⟩ | ⟨hm, Roff, Rposs, hl2, hparse, l1, l2⟩
    · rw [hl] at hn; cases hn
    · rw [hl] at hl2
      cases hl2
      rw [hparse]
      constructor
      · intro he h h1 h24 c hc hv
        have hnil := sortByStart_eq_nil _ (Option.some.inj he)
        obtain ⟨ho, hp⟩ := List.append_eq_nil.1 hnil
        rw [List.map_eq_nil_iff] at ho hp
        subst ho
        subst hp
        obtain ⟨g1, g2⟩ := buildTimeline_getElem? hourMap h h1 h24
        rw [hv] at g1 g2
        rcases halfPair_outage c hc with (e | e) | (e | e)
        · rw [e] at g1; exact runList_nil_absent _ _ l1 _ (by omega) g1
        · rw [e] at g1; exact runList_nil_absent _ _ l2 _ (by omega) g1
        · rw [e] at g2; exact runList_nil_absent _ _ l1 _ (by omega) g2
        · rw [e] at g2; exact runList_nil_absent _ _ l2 _ (by omega) g2
      · intro hall
        have habs : ∀ k, k < 48 → (buildTimeline hourMap)[k]? ≠ some .off ∧
            (buildTimeline hourMap)[k]? ≠ some .possible := by
          intro k hk
          obtain ⟨⟨a1, a2⟩, ⟨b1, b2⟩⟩ := halfPair_no_outage (hourMap (toString (k / 2 + 1)))
            (hall (k / 2 + 1) (by omega) (by omega))
          rw [buildTimeline_slot hourMap k hk]
          by_cases hp : k % 2 = 0
          · rw [if_pos hp]; exact ⟨fun h => a1 (Option.some.inj h), fun h => a2 (Option.some.inj h)⟩
          · rw [if_neg hp]; exact ⟨fun h => b1 (Option.some.inj h), fun h => b2 (Option.some.inj h)⟩
        rw [runList_eq_nil _ _ Roff l1 (fun k hk => (habs k hk).1),
          runList_eq_nil _ _ Rposs l2 (fun k hk => (habs k hk).2)]
        rfl
  refine ⟨key, ?_⟩
  intro hyes
  refine ⟨[], key.2 ?_, rfl, by decide⟩
  intro h h1 h24 c hc hv
  rw [hyes h h1 h24] at hv
  have hcy : c = "yes" := (Option.some.inj hv).symm
  subst hcy
  revert hc
  decide

/-- Witness of C6 at the sample payload with the all-"yes" hour map. -/
theorem empty_iff_no_outage_code_witness :
    ∃ ivs, parseScheduleIntervals (some (samplePayload sampleAllYes)) "GPV5.1" = some ivs ∧
      ivs = [] ∧
      formatScheduleIntervals (some ivs) true = "✅ Відключень не заплановано" :=
  (empty_iff_no_outage_code (some (samplePayload sampleAllYes)) "GPV5.1" sampleAllYes rfl).2
    (fun _ _ _ => rfl)

/-- C7: for an hour map with "first" at hour 1, "second" at hour 2 and "yes" at hours
3..24, `parseScheduleIntervals` returns exactly the two off intervals 00:00 to 00:30 and
01:30 to 02:00, in that order, and timeline slots 1 and 2 are on: the two off half-hours
are not merged. -/
theorem first_second_not_merged (response : Option Response) (scheduleId : String)
    (hourMap : HourMap) (hl : lookupHourMap response scheduleId = some hourMap)
    (h1 : hourMap "1" = some "first") (h2 : hourMap "2" = some "second")
    (h3 : ∀ h, 3 ≤ h → h ≤ 24 → hourMap (toString h) = some "yes") :
    parseScheduleIntervals response scheduleId =
      some [{ start := "00:00", «end» := "00:30", type := .off },
            { start := "01:30", «end» := "02:00", type := .off }] ∧
    (buildTimeline hourMap)[1]? = some .on ∧ (buildTimeline hourMap)[2]? = some .on := by
  have hc : buildTimeline hourMap = buildTimeline sampleFirstSecond := by
    apply buildTimeline_congr
    intro n hn1 hn24
    by_cases e1 : n = 1
    · subst e1; exact h1
    · by_cases e2 : n = 2
      · subst e2; exact h2
      · rw [h3 n (by omega) hn24]
        interval_cases n <;> first | rfl | omega
  unfold parseScheduleIntervals
  rw [hl]
  simp only []
  rw [hc]
  decide

/-- Witness of C7 at the sample payload with the hour map "first", "second", then "yes". -/
theorem first_second_not_merged_witness :
    parseScheduleIntervals (some (samplePayload sampleFirstSecond)) "GPV5.1" =
      some [{ start := "00:00", «end» := "00:30", type := .off },
            { start := "01:30", «end» := "02:00", type := .off }] ∧
    (buildTimeline sampleFirstSecond)[1]? = some .on ∧
    (buildTimeline sampleFirstSecond)[2]? = some .on :=
  first_second_not_merged (some (samplePayload sampleFirstSecond)) "GPV5.1"
    sampleFirstSecond rfl rfl rfl
    (fun h h3 h24 => by interval_cases h <;> rfl)


/-! ## generateMessage: the tomorrow section -/

theorem formatScheduleIntervals_false (ivs : Option (List Interval)) :
    formatScheduleIntervals ivs false =
      "⏳ Дані на наступний день будуть доступні пізніше" := rfl

theorem parseScheduleIntervals_total (response : Option Response) (scheduleId : String) :
    ∃ ivs, parseScheduleIntervals response scheduleId = some ivs := by
  rcases parseScheduleIntervals_spec response scheduleId with ⟨_, h⟩ | ⟨_, _, _, _, h, _⟩
  · exact ⟨_, h⟩
  · exact ⟨_, h⟩

theorem generateMessage_eq (env : Env) (r : Response) (houses : JsObject House)
    (hdata : r.data = some houses) (todayIntervals : List Interval) (text : String)
    (h1 : parseScheduleIntervals (some r) (getQueueFromGraph env.HOUSE (some r)) =
      some todayIntervals)
    (h2 : tomorrowText r (getQueueFromGraph env.HOUSE (some r)) = some text) :
    generateMessage env (some r) =
      some (.ok (composeMessage env (getQueueFromGraph env.HOUSE (some r))
        (formatScheduleIntervals (some todayIntervals) true) text)) := by
  unfold generateMessage
  simp only [hdata, h1, h2]

/-! ## sendNotification: create or edit -/

theorem jsLt_irrefl (a : String) : ¬ jsLt a a := by
  rw [jsLt_iff]; exact lt_irrefl a

theorem loadLastMessage_active (w : World) (day : String) (now : Nat) (files : Files)
    (hnow : w.kyivDate now = day) (last : LastMessage)
    (hfile : files (fileName none) = some last)
    (hdate : ∀ d, last.date = some d → w.kyivDate (d * 1000) = day) :
    loadLastMessage w.kyivDate now none files = (some last, files) := by
  unfold loadLastMessage
  rw [hfile]
  cases hd : last.date with
  | none => simp only [hd]
  | some d =>
    simp only [hd]
    rw [hdate d hd, hnow, if_neg (fun h => jsLt_irrefl day h.2)]

/-- From an active file, a run on that day never creates; if it succeeds it edits the
message named in the file. -/
theorem sendNotification_active (w : World) (day : String) (run : Run) (files : Files)
    (hnow : w.kyivDate run.now = day) (hact : Active w day files) :
    (sendNotification w run files).created = false ∧
    ((sendNotification w run files).failed = false →
      (sendNotification w run files).edited = true ∧
      ∃ req, (sendNotification w run files).request = some req ∧
        req.endpoint = .editMessageText ∧
        req.message_id = (files (fileName none)).bind (fun m => m.message_id)) := by
  obtain ⟨last, id, hfile, hid, hid0, hdate⟩ := hact
  have hload := loadLastMessage_active w day run.now files hnow last hfile hdate
  unfold sendNotification
  by_cases ht : w.TELEGRAM_BOT_TOKEN = ""
  · simp [ht, SendResult.created, SendResult.failed]
  · by_cases hc : w.TELEGRAM_CHAT_ID = ""
    · simp [ht, hc, SendResult.created, SendResult.failed]
    · simp only [ht, hc, if_false, hload, Option.getD_some, hid, hfile, Option.bind_some]
      simp only [ne_eq, hid0, not_false_eq_true, if_true]
      split
      · simp [SendResult.created, SendResult.failed]
      · split
        · simp [SendResult.created, SendResult.failed]
        · split <;> simp [SendResult.created, SendResult.failed, SendResult.edited, hid]

/-- A run that succeeds leaves an active file, when the response names a message of the
day. -/
theorem sendNotification_ok_active (w : World) (day : String) (run : Run) (files : Files)
    (hresp : ∀ req body res, run.fetch req = .response true body → body.ok = true →
      body.result = some res →
      (∃ id, res.message_id = some id ∧ id ≠ 0) ∧
        ∀ d, res.date = some d → w.kyivDate (d * 1000) = day)
    (hok : (sendNotification w run files).failed = false) :
    Active w day (sendNotification w run files).files := by
  unfold sendNotification at hok ⊢
  by_cases ht : w.TELEGRAM_BOT_TOKEN = ""
  · simp [ht, SendResult.failed] at hok
  · by_cases hc : w.TELEGRAM_CHAT_ID = ""
    · simp [ht, hc, SendResult.failed] at hok
    · simp only [ht, hc, if_false] at hok ⊢
      split at hok
      · simp [SendResult.failed] at hok
      · rename_i ok data hfetch
        split at hok
        · simp [SendResult.failed] at hok
        · rename_i hokb
          split at hok
          · rename_i res hbok hres
            have hokt : ok = true := by simpa using hokb
            subst hokt
            obtain ⟨⟨id, hid, hid0⟩, hdate⟩ := hresp _ data res hfetch hbok hres
            simp only [Bool.not_true, Bool.false_eq_true, if_false, hbok, hres]
            exact ⟨_, id, by simp [saveLastMessage], hid, hid0, hdate⟩
          · simp [SendResult.failed] at hok

theorem created_not_failed (r : SendResult) (h : r.created = true) : r.failed = false := by
  unfold SendResult.created at h
  unfold SendResult.failed
  split at h
  · rename_i heq _; rw [heq]
  · cases h

theorem creates_bound (w : World) (day : String) :
    ∀ (runs : List Run) (files : Files),
      (∀ r ∈ runs, w.kyivDate r.now = day) →
      (∀ r ∈ runs, ∀ req body res, r.fetch req = .response true body → body.ok = true →
        body.result = some res →
        (∃ id, res.message_id = some id ∧ id ≠ 0) ∧
          ∀ d, res.date = some d → w.kyivDate (d * 1000) = day) →
      (runAll w runs files).countP SendResult.created ≤
        (runAll w runs files).countP SendResult.failed + 1 ∧
      (Active w day files →
        (runAll w runs files).countP SendResult.created ≤
          (runAll w runs files).countP SendResult.failed) := by
  intro runs
  induction runs with
  | nil => intro files _ _; simp [runAll]
  | cons run rest ih =>
    intro files hday hresp
    obtain ⟨ih1, ih2⟩ := ih (sendNotification w run files).files
      (fun r hr => hday r (List.mem_cons_of_mem _ hr))
      (fun r hr => hresp r (List.mem_cons_of_mem _ hr))
    have hA := sendNotification_ok_active w day run files (hresp run (List.mem_cons_self _ _))
    have hB := sendNotification_active w day run files (hday run (List.mem_cons_self _ _))
    simp only [runAll, List.countP_cons]
    cases hf : (sendNotification w run files).failed with
    | true =>
      have hc : (sendNotification w run files).created = false := by
        cases hcr : (sendNotification w run files).created with
        | false => rfl
        | true => rw [created_not_failed _ hcr] at hf; cases hf
      simp only [hc, if_true]
      constructor
      · simp; omega
      · intro _; simp; omega
    | false =>
      have ih2 := ih2 (hA hf)
      constructor
      · cases hcr : (sendNotification w run files).created <;> simp <;> omega
      · intro hact
        rw [(hB hact).1]
        simp; omega

theorem edits_chain (w : World) (day : String) :
    ∀ (runs : List Run) (files : Files),
      (∀ r ∈ runs, w.kyivDate r.now = day) →
      (∀ r ∈ runs, ∀ req body res, r.fetch req = .response true body → body.ok = true →
        body.result = some res →
        (∃ id, res.message_id = some id ∧ id ≠ 0) ∧
          ∀ d, res.date = some d → w.kyivDate (d * 1000) = day) →
      List.Chain'
        (fun a b => a.failed = false → b.failed = false →
          b.edited = true ∧ ∃ req, b.request = some req ∧
            req.endpoint = .editMessageText ∧
            req.message_id = (a.files (fileName none)).bind (fun m => m.message_id))
        (runAll w runs files) := by
  intro runs
  induction runs with
  | nil => intro files _ _; exact List.chain'_nil
  | cons run rest ih =>
    intro files hday hresp
    have ih := ih (sendNotification w run files).files
      (fun r hr => hday r (List.mem_cons_of_mem _ hr))
      (fun r hr => hresp r (List.mem_cons_of_mem _ hr))
    cases rest with
    | nil => exact List.chain'_singleton _
    | cons run2 rest2 =>
      simp only [runAll] at ih ⊢
      refine List.chain'_cons.2 ⟨?_, ih⟩
      intro ha hb
      have hact := sendNotification_ok_active w day run files
        (hresp run (List.mem_cons_self _ _)) ha
      exact (sendNotification_active w day run2 _
        (hday run2 (List.mem_cons_of_mem _ (List.mem_cons_self _ _))) hact).2 hb

/-- C10, as amended: in a sequence of runs that all fall on the same calendar day, each
successful response naming a message (non-zero id) dated that day, the number of runs that
create a new message is at most one more than the number of failed runs, so at most one
when no run fails; and a successful run right after a successful run edits the message
that run stored. A failed run deletes the stored state, so the next successful run creates
again. -/
theorem creates_le_failures_succ (w : World) (day : String) (runs : List Run)
    (files : Files)
    (hday : ∀ r ∈ runs, w.kyivDate r.now = day)
    (hresp : ∀ r ∈ runs, ∀ req body res, r.fetch req = .response true body →
      body.ok = true → body.result = some res →
      (∃ id, res.message_id = some id ∧ id ≠ 0) ∧
        ∀ d, res.date = some d → w.kyivDate (d * 1000) = day) :
    (runAll w runs files).countP SendResult.created ≤
      (runAll w runs files).countP SendResult.failed + 1 ∧
    ((runAll w runs files).countP SendResult.failed = 0 →
      (runAll w runs files).countP SendResult.created ≤ 1) ∧
    List.Chain'
      (fun a b => a.failed = false → b.failed = false →
        b.edited = true ∧ ∃ req, b.request = some req ∧
          req.endpoint = .editMessageText ∧
          req.message_id = (a.files (fileName none)).bind (fun m => m.message_id))
      (runAll w runs files) := by
  have h := (creates_bound w day runs files hday hresp).1
  refine ⟨h, ?_, edits_chain w day runs files hday hresp⟩
  intro h0
  rw [h0] at h
  exact h

/-- Witness of C10 as amended, at two accepted runs on 6 November 2025 with no file at
the start: one run creates. -/
theorem creates_le_failures_succ_witness :
    (runAll sampleWorld sampleRunsOk noFiles).countP SendResult.created ≤ 1 :=
  (creates_le_failures_succ sampleWorld "2025-11-06" sampleRunsOk noFiles (by decide)
    (by
      intro r hr req body res h1 h2 h3
      have hf : r.fetch = fetchOk := by
        simp only [sampleRunsOk, List.mem_cons, List.mem_singleton, List.not_mem_nil,
          or_false] at hr
        rcases hr with rfl | rfl <;> rfl
      rw [hf] at h1
      simp only [fetchOk, FetchOutcome.response.injEq, true_and] at h1
      subst h1
      cases h3
      exact ⟨⟨77, rfl, by decide⟩, fun d hd => by cases hd; decide⟩)).2.1 (by decide)

/-- Counterexample to C10 as stated: three runs on 6 November 2025, Kyiv time, the second
refused by the transport: the first and the third both make a successful `sendMessage`
call. -/
theorem one_create_per_day_counterexample :
    sampleRuns.map (fun r => sampleWorld.kyivDate r.now) =
      ["2025-11-06", "2025-11-06", "2025-11-06"] ∧
    (runAll sampleWorld sampleRuns noFiles).map SendResult.created = [true, false, true] ∧
    (runAll sampleWorld sampleRuns noFiles).map SendResult.failed = [false, true, false] ∧
    (runAll sampleWorld sampleRuns noFiles).countP SendResult.created = 2 := by
  decide

/-! ## sendNotification: the request and the stored state -/

theorem sendNotification_request (w : World) (run : Run) (files : Files)
    (ht : w.TELEGRAM_BOT_TOKEN ≠ "") (hc : w.TELEGRAM_CHAT_ID ≠ "") :
    (sendNotification w run files).request =
      some
        { endpoint :=
            match ((loadLastMessage w.kyivDate run.now none files).1.getD
              { message_id := none, date := none }).message_id with
            | some id => if id ≠ 0 then Endpoint.editMessageText else Endpoint.sendMessage
            | none => Endpoint.sendMessage
          chat_id := w.TELEGRAM_CHAT_ID
          text := run.message
          parse_mode := "HTML"
          message_id := ((loadLastMessage w.kyivDate run.now none files).1.getD
            { message_id := none, date := none }).message_id } := by
  unfold sendNotification
  simp only [ht, hc, if_false]
  split
  · rfl
  · split
    · rfl
    · split <;> rfl

/-- C11, as amended: `sendNotification` chooses the call from the loaded state: when
`loadLastMessage` yields no record it calls `sendMessage` with no message id; when it
yields a record with a message id `m` other than zero it calls `editMessageText` and the
request carries exactly `m` as `message_id`. -/
theorem request_from_loaded_state (w : World) (run : Run) (files : Files)
    (ht : w.TELEGRAM_BOT_TOKEN ≠ "") (hc : w.TELEGRAM_CHAT_ID ≠ "") :
    ((loadLastMessage w.kyivDate run.now none files).1 = none →
      (sendNotification w run files).request =
        some { endpoint := .sendMessage, chat_id := w.TELEGRAM_CHAT_ID,
               text := run.message, parse_mode := "HTML", message_id := none }) ∧
    (∀ last m, (loadLastMessage w.kyivDate run.now none files).1 = some last →
      last.message_id = some m → m ≠ 0 →
      (sendNotification w run files).request =
        some { endpoint := .editMessageText, chat_id := w.TELEGRAM_CHAT_ID,
               text := run.message, parse_mode := "HTML", message_id := some m }) := by
  rw [sendNotification_request w run files ht hc]
  constructor
  · intro h
    rw [h]
    rfl
  · intro last m h hm hm0
    rw [h]
    simp only [Option.getD_some, hm, ne_eq, hm0, not_false_eq_true, if_true]

/-- Witness of C11 as amended: with no file the request is a `sendMessage` without message id; with a
file naming message 77 of the same day it is an `editMessageText` carrying 77. -/
theorem request_from_loaded_state_witness :
    (sendNotification sampleWorld sampleRunOk noFiles).request =
      some { endpoint := .sendMessage, chat_id := "100", text := "a",
             parse_mode := "HTML", message_id := none } ∧
    (sendNotification sampleWorld sampleRunOk
        (filesWith { message_id := some 77, date := some 1762416000 })).request =
      some { endpoint := .editMessageText, chat_id := "100", text := "a",
             parse_mode := "HTML", message_id := some 77 } :=
  ⟨(request_from_loaded_state sampleWorld sampleRunOk noFiles (by decide) (by decide)).1
      (by decide),
   (request_from_loaded_state sampleWorld sampleRunOk
      (filesWith { message_id := some 77, date := some 1762416000 })
      (by decide) (by decide)).2
      { message_id := some 77, date := some 1762416000 } 77 (by decide) rfl (by decide)⟩

/-- Counterexample to C11 as stated: `loadLastMessage` yields a record with message id 0,
and the call is `sendMessage`, not `editMessageText`: the choice tests the truthiness of
the id. -/
theorem zero_message_id_counterexample :
    (loadLastMessage sampleWorld.kyivDate sampleRunOk.now none
        (filesWith { message_id := some 0, date := some 1762416000 })).1 =
      some { message_id := some 0, date := some 1762416000 } ∧
    (sendNotification sampleWorld sampleRunOk
        (filesWith { message_id := some 0, date := some 1762416000 })).request =
      some { endpoint := .sendMessage, chat_id := "100", text := "a",
             parse_mode := "HTML", message_id := some 0 } := by
  decide

theorem deleteLastMessage_absent (chatId : Option String) (files : Files) :
    (deleteLastMessage chatId files) (fileName chatId) = none := by
  simp [deleteLastMessage]

theorem loadLastMessage_absent (kyivDate : Nat → String) (now : Nat)
    (chatId : Option String) (files : Files) (h : files (fileName chatId) = none) :
    loadLastMessage kyivDate now chatId files = (none, files) := by
  unfold loadLastMessage
  rw [h]

/-- C12: for every prior state of the files and every failed call (the transport throws,
the response is non-success, or the body lacks `ok` or `result`), `sendNotification`
throws (the error of the transport, or its own error for the response) and leaves no
last-message file, so that the next `loadLastMessage` returns `null`. -/
theorem failed_call_clears_state (w : World) (run : Run) (files : Files)
    (ht : w.TELEGRAM_BOT_TOKEN ≠ "") (hc : w.TELEGRAM_CHAT_ID ≠ "") :
    ∃ req, (sendNotification w run files).request = some req ∧
      (∀ msg, run.fetch req = .thrown msg →
        (sendNotification w run files).outcome = .error msg ∧
        (sendNotification w run files).files (fileName none) = none ∧
        ∀ now, (loadLastMessage w.kyivDate now none
          (sendNotification w run files).files).1 = none) ∧
      (∀ body, run.fetch req = .response false body →
        (sendNotification w run files).outcome =
          .error ("Telegram API error: " ++ body.description.getD "undefined") ∧
        (sendNotification w run files).files (fileName none) = none ∧
        ∀ now, (loadLastMessage w.kyivDate now none
          (sendNotification w run files).files).1 = none) ∧
      (∀ body, run.fetch req = .response true body →
        (body.ok = false ∨ body.result = none) →
        (sendNotification w run files).outcome =
          .error "Unexpected Telegram API response" ∧
        (sendNotification w run files).files (fileName none) = none ∧
        ∀ now, (loadLastMessage w.kyivDate now none
          (sendNotification w run files).files).1 = none) := by
  refine ⟨_, sendNotification_request w run files ht hc, ?_, ?_, ?_⟩
  · intro msg hf
    have hs : sendNotification w run files =
        { outcome := .error msg,
          files := deleteLastMessage none (loadLastMessage w.kyivDate run.now none files).2,
          request := (sendNotification w run files).request } := by
      rw [sendNotification_request w run files ht hc]
      unfold sendNotification
      simp only [ht, hc, if_false, hf]
    have hfiles : (sendNotification w run files).files =
        deleteLastMessage none (loadLastMessage w.kyivDate run.now none files).2 := by
      rw [hs]
    have hout := congrArg SendResult.outcome hs
    rw [hfiles]
    refine ⟨hout, deleteLastMessage_absent none _, fun now => ?_⟩
    rw [loadLastMessage_absent _ _ none _ (deleteLastMessage_absent none _)]
  · intro body hf
    have hs : sendNotification w run files =
        { outcome := .error ("Telegram API error: " ++ body.description.getD "undefined"),
          files := deleteLastMessage none (loadLastMessage w.kyivDate run.now none files).2,
          request := (sendNotification w run files).request } := by
      rw [sendNotification_request w run files ht hc]
      unfold sendNotification
      simp only [ht, hc, if_false, hf]
      rfl
    have hfiles : (sendNotification w run files).files =
        deleteLastMessage none (loadLastMessage w.kyivDate run.now none files).2 := by
      rw [hs]
    have hout := congrArg SendResult.outcome hs
    rw [hfiles]
    refine ⟨hout, deleteLastMessage_absent none _, fun now => ?_⟩
    rw [loadLastMessage_absent _ _ none _ (deleteLastMessage_absent none _)]
  · intro body hf hbad
    have hs : sendNotification w run files =
        { outcome := .error "Unexpected Telegram API response",
          files := deleteLastMessage none (loadLastMessage w.kyivDate run.now none files).2,
          request := (sendNotification w run files).request } := by
      rw [sendNotification_request w run files ht hc]
      unfold sendNotification
      simp only [ht, hc, if_false, hf]
      rcases hbad with hb | hb
      · simp [hb]
      · cases hbo : body.ok <;> simp [hb]
    have hfiles : (sendNotification w run files).files =
        deleteLastMessage none (loadLastMessage w.kyivDate run.now none files).2 := by
      rw [hs]
    have hout := congrArg SendResult.outcome hs
    rw [hfiles]
    refine ⟨hout, deleteLastMessage_absent none _, fun now => ?_⟩
    rw [loadLastMessage_absent _ _ none _ (deleteLastMessage_absent none _)]

/-- Witness of C12: a refused edit of message 77 throws the error of the response and
leaves no last-message file. -/
theorem failed_call_clears_state_witness :
    (sendNotification sampleWorld sampleRunRefused
        (filesWith { message_id := some 77, date := some 1762416000 })).outcome =
      .error "Telegram API error: Bad Request: message is not modified" ∧
    (sendNotification sampleWorld sampleRunRefused
        (filesWith { message_id := some 77, date := some 1762416000 })).files
      "last-message.json" = none := by
  obtain ⟨req, _, _, h2, _⟩ := failed_call_clears_state sampleWorld sampleRunRefused
    (filesWith { message_id := some 77, date := some 1762416000 }) (by decide) (by decide)
  exact ⟨(h2 _ rfl).1, (h2 _ rfl).2.1⟩

/-- C14, as amended: after a successful edit call made from a state holding message id
`m`, the file holds the message id and the date of the result of the response; it holds
`m` when the response names message `m`. -/
theorem edit_persists_response (w : World) (run : Run) (files : Files)
    (last : LastMessage) (m : Nat) (body : Body) (res : LastMessage)
    (ht : w.TELEGRAM_BOT_TOKEN ≠ "") (hc : w.TELEGRAM_CHAT_ID ≠ "")
    (hload : (loadLastMessage w.kyivDate run.now none files).1 = some last)
    (hm : last.message_id = some m) (hm0 : m ≠ 0)
    (hfetch : run.fetch
      { endpoint := .editMessageText, chat_id := w.TELEGRAM_CHAT_ID,
        text := run.message, parse_mode := "HTML", message_id := some m } =
        .response true body)
    (hbok : body.ok = true) (hres : body.result = some res) :
    (sendNotification w run files).edited = true ∧
    (sendNotification w run files).files (fileName none) =
      some { message_id := res.message_id, date := res.date } ∧
    (res.message_id = some m →
      ((sendNotification w run files).files (fileName none)).bind (fun r => r.message_id) =
        some m) := by
  have hreq := (request_from_loaded_state w run files ht hc).2 last m hload hm hm0
  have hs : sendNotification w run files =
      { outcome := .ok (),
        files := saveLastMessage res none (loadLastMessage w.kyivDate run.now none files).2,
        request := (sendNotification w run files).request } := by
    rw [hreq]
    unfold sendNotification
    simp only [ht, hc, if_false, hload, Option.getD_some, hm, ne_eq, hm0,
      not_false_eq_true, if_true, hfetch, hbok, hres]
    rfl
  have hfiles : (sendNotification w run files).files (fileName none) =
      some { message_id := res.message_id, date := res.date } := by
    rw [hs]
    simp [saveLastMessage]
  refine ⟨?_, hfiles, ?_⟩
  · rw [hs, hreq]
    rfl
  · intro h
    rw [hfiles, ← h]
    rfl

/-- Witness of C14 as amended: an accepted edit of message 77 whose response names
message 77 keeps 77 in the file. -/
theorem edit_persists_response_witness :
    (sendNotification sampleWorld sampleRunOk
        (filesWith { message_id := some 77, date := some 1762416000 })).files
      "last-message.json" = some { message_id := some 77, date := some 1762416000 } :=
  (edit_persists_response sampleWorld sampleRunOk
    (filesWith { message_id := some 77, date := some 1762416000 })
    { message_id := some 77, date := some 1762416000 } 77
    { ok := true, result := some { message_id := some 77, date := some 1762416000 },
      description := none }
    { message_id := some 77, date := some 1762416000 }
    (by decide) (by decide) (by decide) rfl (by decide) rfl rfl rfl).2.1

/-- Counterexample to C14 as stated: an accepted edit of the stored message 77 whose
response names message 78 leaves 78 in the file, not 77. -/
theorem edit_keeps_id_counterexample :
    (sendNotification sampleWorld sampleRunOkNext
        (filesWith { message_id := some 77, date := some 1762416000 })).request =
      some { endpoint := .editMessageText, chat_id := "100", text := "b",
             parse_mode := "HTML", message_id := some 77 } ∧
    (sendNotification sampleWorld sampleRunOkNext
        (filesWith { message_id := some 77, date := some 1762416000 })).edited = true ∧
    (sendNotification sampleWorld sampleRunOkNext
        (filesWith { message_id := some 77, date := some 1762416000 })).files
      "last-message.json" = some { message_id := some 78, date := some 1762423200 } := by
  decide

/-! ## formatScheduleIntervals: the lines of the report -/

theorem intercalate_go_eq (s : String) (l : List String) :
    ∀ acc, String.intercalate.go acc s l = l.foldl (fun r a => r ++ s ++ a) acc := by
  induction l with
  | nil => intro acc; rfl
  | cons a l ih => intro acc; simp only [String.intercalate.go, List.foldl_cons, ih]

theorem foldl_join_append (s x : String) (l : List String) :
    ∀ y, l.foldl (fun r a => r ++ s ++ a) (x ++ y) =
      x ++ l.foldl (fun r a => r ++ s ++ a) y := by
  induction l with
  | nil => intro y; rfl
  | cons a l ih =>
    intro y
    simp only [List.foldl_cons]
    rw [String.append_assoc, String.append_assoc, ih, String.append_assoc]

theorem intercalate_cons (s a : String) (l : List String) :
    String.intercalate s (a :: l) = a ++ l.foldl (fun r b => r ++ s ++ b) "" := by
  show String.intercalate.go a s l = _
  rw [intercalate_go_eq, ← foldl_join_append, String.append_empty]

theorem intercalate_append (s : String) (A B : List String) (hA : A ≠ []) (hB : B ≠ []) :
    String.intercalate s (A ++ B) = String.intercalate s A ++ s ++ String.intercalate s B := by
  cases A with
  | nil => exact absurd rfl hA
  | cons a A' =>
    cases B with
    | nil => exact absurd rfl hB
    | cons b B' =>
      show String.intercalate.go a s (A' ++ b :: B') =
        String.intercalate.go a s A' ++ s ++ String.intercalate.go b s B'
      rw [intercalate_go_eq, intercalate_go_eq, intercalate_go_eq, List.foldl_append,
        List.foldl_cons, foldl_join_append]


theorem head_append (a t : String) (h : a.data ≠ []) :
    (a ++ t).data.head? = a.data.head? := by
  rw [String.data_append]
  cases hd : a.data with
  | nil => exact absurd hd h
  | cons c cs => rfl

theorem intercalate_head (s a : String) (l : List String) (h : a.data ≠ []) :
    (String.intercalate s (a :: l)).data.head? = a.data.head? := by
  rw [intercalate_cons, head_append _ _ h]

theorem offLine_head (i : Interval) :
    ("🪫 " ++ i.start ++ " — " ++ i.«end»).data.head? = some '🪫' := by
  rw [String.append_assoc, String.append_assoc, head_append _ _ (by decide)]
  rfl

theorem possibleLine_head (i : Interval) :
    ("❓ " ++ i.start ++ " — " ++ i.«end» ++ " (можливо)").data.head? = some '❓' := by
  rw [String.append_assoc, String.append_assoc, String.append_assoc,
    head_append _ _ (by decide)]
  rfl

theorem ne_empty_of_head (s : String) (c : Char) (h : s.data.head? = some c) : s ≠ "" := by
  intro he
  rw [he] at h
  cases h

theorem append_ne_empty (a t : String) (h : a ≠ "") : a ++ t ≠ "" := by
  intro he
  have hd := congrArg String.data he
  rw [String.data_append] at hd
  exact h (String.ext (List.append_eq_nil.1 hd).1)

/-- The lines of the report. -/
theorem formatScheduleIntervals_lines (ivs : List Interval) :
    (ivs.filter (fun i => decide (i.type = Slot.off)) ≠ [] ∨
      ivs.filter (fun i => decide (i.type = Slot.possible)) ≠ [] →
      formatScheduleIntervals (some ivs) true =
        String.intercalate "\n"
          ((ivs.filter (fun i => decide (i.type = Slot.off))).map
              (fun i => "🪫 " ++ i.start ++ " — " ++ i.«end») ++
           (ivs.filter (fun i => decide (i.type = Slot.possible))).map
              (fun i => "❓ " ++ i.start ++ " — " ++ i.«end» ++ " (можливо)"))) := by
  intro h
  have hne : ivs ≠ [] := by
    rintro rfl
    simp at h
  unfold formatScheduleIntervals
  simp only [Bool.not_true, Bool.false_eq_true, if_false, List.length_eq_zero, hne,
    String.empty_append, gt_iff_lt, List.length_pos]
  cases hO : ivs.filter (fun i => decide (i.type = Slot.off)) with
  | nil =>
    cases hP : ivs.filter (fun i => decide (i.type = Slot.possible)) with
    | nil => rw [hO, hP] at h; simp at h
    | cons p P =>
      simp only [ne_eq, not_true_eq_false, if_false, List.map_nil, List.nil_append,
        reduceCtorEq, not_false_eq_true, if_true, String.empty_append, List.map_cons]
      rw [if_pos]
      exact ne_empty_of_head _ '❓' (by rw [intercalate_head _ _ _ (by
        intro hd; have := possibleLine_head p; rw [hd] at this; cases this)]; exact possibleLine_head p)
  | cons o O =>
    have hOne : String.intercalate "\n"
        (List.map (fun i => "🪫 " ++ i.start ++ " — " ++ i.«end») (o :: O)) ≠ "" :=
      ne_empty_of_head _ '🪫' (by
        rw [List.map_cons, intercalate_head _ _ _ (by
          intro hd; have := offLine_head o; rw [hd] at this; cases this)]
        exact offLine_head o)
    cases hP : ivs.filter (fun i => decide (i.type = Slot.possible)) with
    | nil =>
      simp only [ne_eq, reduceCtorEq, not_false_eq_true, if_true, not_true_eq_false,
        if_false, List.map_nil, List.append_nil, hOne]
    | cons p P =>
      simp only [ne_eq, reduceCtorEq, not_false_eq_true, if_true, hOne]
      rw [intercalate_append _ _ _ (by simp) (by simp), if_pos]
      exact append_ne_empty _ _ (append_ne_empty _ _ hOne)

theorem filter_types_ne_nil (ivs : List Interval)
    (h : ∃ iv ∈ ivs, iv.type = .off ∨ iv.type = .possible) :
    ivs.filter (fun i => decide (i.type = Slot.off)) ≠ [] ∨
      ivs.filter (fun i => decide (i.type = Slot.possible)) ≠ [] := by
  obtain ⟨iv, hiv, ht | ht⟩ := h
  · left
    intro he
    have := List.filter_eq_nil_iff.1 he iv hiv
    simp [ht] at this
  · right
    intro he
    have := List.filter_eq_nil_iff.1 he iv hiv
    simp [ht] at this

theorem formatScheduleIntervals_head (ivs : List Interval)
    (h : ∃ iv ∈ ivs, iv.type = .off ∨ iv.type = .possible) :
    (formatScheduleIntervals (some ivs) true).data.head? = some '🪫' ∨
    (formatScheduleIntervals (some ivs) true).data.head? = some '❓' := by
  rw [formatScheduleIntervals_lines ivs (filter_types_ne_nil ivs h)]
  cases hO : ivs.filter (fun i => decide (i.type = Slot.off)) with
  | nil =>
    cases hP : ivs.filter (fun i => decide (i.type = Slot.possible)) with
    | nil =>
      rcases filter_types_ne_nil ivs h with h1 | h1
      · exact absurd hO h1
      · exact absurd hP h1
    | cons p P =>
      right
      rw [List.map_nil, List.nil_append, List.map_cons, intercalate_head _ _ _ (by
        intro hd; have := possibleLine_head p; rw [hd] at this; cases this)]
      exact possibleLine_head p
  | cons o O =>
    left
    rw [List.map_cons, List.cons_append, intercalate_head _ _ _ (by
      intro hd; have := offLine_head o; rw [hd] at this; cases this)]
    exact offLine_head o

theorem length_filter_types (ivs : List Interval)
    (h : ∀ iv ∈ ivs, iv.type = .off ∨ iv.type = .possible) :
    (ivs.filter (fun i => decide (i.type = Slot.off))).length +
      (ivs.filter (fun i => decide (i.type = Slot.possible))).length = ivs.length := by
  induction ivs with
  | nil => rfl
  | cons iv rest ih =>
    have ih := ih (fun x hx => h x (List.mem_cons_of_mem _ hx))
    rcases h iv (List.mem_cons_self _ _) with ht | ht <;>
      simp [List.filter_cons, ht] <;> omega

theorem parseScheduleIntervals_types (response : Option Response) (scheduleId : String)
    (ivs : List Interval) (h : parseScheduleIntervals response scheduleId = some ivs) :
    ∀ iv ∈ ivs, iv.type = .off ∨ iv.type = .possible := by
  rcases parseScheduleIntervals_spec response scheduleId with
    ⟨_, h0⟩ | ⟨hm, Roff, Rposs, _, h1, l1, l2⟩
  · rw [h0] at h
    cases h
    intro iv hiv
    cases hiv
  · rw [h1] at h
    cases h
    intro iv hiv
    rw [mem_sortByStart] at hiv
    obtain ⟨kind, s, e, hk, rfl, _⟩ := mem_runs _ Roff Rposs l1 l2 iv hiv
    exact hk

/-- C15: `formatScheduleIntervals` applies its rules in priority order: with `hasData`
false the result is the pending message, for every list; otherwise a missing or empty list
gives the no-outages message; otherwise, when the list holds at least one off or possible
interval, the result is neither of these two messages. -/
theorem format_priority :
    (∀ ivs, formatScheduleIntervals ivs false =
      "⏳ Дані на наступний день будуть доступні пізніше") ∧
    formatScheduleIntervals none true = "✅ Відключень не заплановано" ∧
    formatScheduleIntervals (some []) true = "✅ Відключень не заплановано" ∧
    (∀ ivs : List Interval, (∃ iv ∈ ivs, iv.type = .off ∨ iv.type = .possible) →
      formatScheduleIntervals (some ivs) true ≠
        "⏳ Дані на наступний день будуть доступні пізніше" ∧
      formatScheduleIntervals (some ivs) true ≠ "✅ Відключень не заплановано") := by
  refine ⟨formatScheduleIntervals_false, rfl, rfl, ?_⟩
  intro ivs h
  have hh := formatScheduleIntervals_head ivs h
  constructor
  · intro he
    rw [he] at hh
    revert hh
    decide
  · intro he
    rw [he] at hh
    revert hh
    decide

theorem formatScheduleIntervals_no_lines (ivs : List Interval)
    (h : ∀ iv ∈ ivs, iv.type ≠ .off ∧ iv.type ≠ .possible) :
    formatScheduleIntervals (some ivs) true = "✅ Відключень не заплановано" := by
  have hO : ivs.filter (fun i => decide (i.type = Slot.off)) = [] := by
    rw [List.filter_eq_nil_iff]
    intro iv hiv
    simp [(h iv hiv).1]
  have hP : ivs.filter (fun i => decide (i.type = Slot.possible)) = [] := by
    rw [List.filter_eq_nil_iff]
    intro iv hiv
    simp [(h iv hiv).2]
  unfold formatScheduleIntervals
  simp only [hO, hP]
  split_ifs <;> first | rfl | simp_all

/-- C16: for an interval list with at least one off or possible interval and `hasData`
true, the report is the lines joined by a line break: one line per off interval, in the
order of the list, followed by one line per possible interval, in the order of the list,
whatever the interleaving of the two kinds in the list; when every interval is off or
possible the number of lines is the number of intervals, as it is for every list that
`parseScheduleIntervals` returns. A list without any off or possible interval gives no
line but the no-outages message. -/
theorem format_groups (ivs : List Interval)
    (h : ∃ iv ∈ ivs, iv.type = .off ∨ iv.type = .possible) :
    formatScheduleIntervals (some ivs) true =
      String.intercalate "\n"
        ((ivs.filter (fun i => decide (i.type = Slot.off))).map
            (fun i => "🪫 " ++ i.start ++ " — " ++ i.«end») ++
         (ivs.filter (fun i => decide (i.type = Slot.possible))).map
            (fun i => "❓ " ++ i.start ++ " — " ++ i.«end» ++ " (можливо)")) ∧
    ((∀ iv ∈ ivs, iv.type = .off ∨ iv.type = .possible) →
      ((ivs.filter (fun i => decide (i.type = Slot.off))).map
            (fun i => "🪫 " ++ i.start ++ " — " ++ i.«end») ++
          (ivs.filter (fun i => decide (i.type = Slot.possible))).map
            (fun i => "❓ " ++ i.start ++ " — " ++ i.«end» ++ " (можливо)")).length =
        ivs.length) ∧
    (∀ (response : Option Response) (scheduleId : String),
      ∃ res, parseScheduleIntervals response scheduleId = some res ∧
        ((res.filter (fun i => decide (i.type = Slot.off))).map
              (fun i => "🪫 " ++ i.start ++ " — " ++ i.«end») ++
            (res.filter (fun i => decide (i.type = Slot.possible))).map
              (fun i => "❓ " ++ i.start ++ " — " ++ i.«end» ++ " (можливо)")).length =
          res.length) ∧
    (∀ others : List Interval,
      (∀ iv ∈ others, iv.type ≠ .off ∧ iv.type ≠ .possible) →
      formatScheduleIntervals (some others) true = "✅ Відключень не заплановано") := by
  refine ⟨formatScheduleIntervals_lines ivs (filter_types_ne_nil ivs h), ?_, ?_,
    formatScheduleIntervals_no_lines⟩
  · intro hty
    rw [List.length_append, List.length_map, List.length_map]
    exact length_filter_types ivs hty
  · intro response scheduleId
    obtain ⟨res, hres⟩ := parseScheduleIntervals_total response scheduleId
    refine ⟨res, hres, ?_⟩
    rw [List.length_append, List.length_map, List.length_map]
    exact length_filter_types res (parseScheduleIntervals_types response scheduleId res hres)

/-- Witness of C16: a possible interval before an off interval in the list comes after it
in the report. -/
theorem format_groups_witness :
    formatScheduleIntervals (some sampleIntervals) true =
      "🪫 03:00 — 04:00\n❓ 02:00 — 03:00 (можливо)\n❓ 08:00 — 08:30 (можливо)" :=
  (format_groups sampleIntervals (by decide)).1.trans (by decide)

/-! ## generateMessage: the lookups -/

theorem tomorrowText_total (r : Response) (queue : String) :
    ∃ text, tomorrowText r queue = some text := by
  have hti : ∃ ivs, tomorrowIntervals r queue = some ivs := by
    unfold tomorrowIntervals
    split
    · split
      · exact parseScheduleIntervals_total _ _
      · exact ⟨[], rfl⟩
    · exact ⟨[], rfl⟩
  obtain ⟨ivs, hivs⟩ := hti
  unfold tomorrowText
  rw [hivs]
  by_cases hd : (tomorrowData r).isSome = true
  · exact ⟨formatScheduleIntervals (some ivs) true, by simp only [hd, if_true]⟩
  · exact ⟨_, by simp only [hd]; rfl⟩

theorem parse_of_lookup_none (response : Option Response) (scheduleId : String)
    (h : lookupHourMap response scheduleId = none) :
    parseScheduleIntervals response scheduleId = some [] := by
  unfold parseScheduleIntervals
  rw [h]

theorem lookup_tomorrowResponse (n : Nat) (queue : String) (hourMap : HourMap)
    (hn : n ≠ 0) :
    lookupHourMap (some (tomorrowResponse n queue hourMap)) queue = some hourMap := by
  simp [lookupHourMap, tomorrowResponse, hn]

theorem parse_tomorrowResponse (n : Nat) (queue : String) (hourMap : HourMap)
    (hn : n ≠ 0) :
    parseScheduleIntervals (some (tomorrowResponse n queue hourMap)) queue =
      mergeIntervals (buildTimeline hourMap) := by
  unfold parseScheduleIntervals
  rw [lookup_tomorrowResponse n queue hourMap hn]

theorem roundDouble_of_lt (n : Nat) (h : n < 2 ^ 53) : roundDouble n = n := by
  unfold roundDouble
  rw [if_pos h]

theorem roundDouble_ne_zero (n : Nat) (h : n ≠ 0) : roundDouble n ≠ 0 := by
  unfold roundDouble
  by_cases hlt : n < 2 ^ 53
  · rw [if_pos hlt]; exact h
  · rw [if_neg hlt]
    have hu : 0 < 2 ^ (Nat.log2 n - 52) := Nat.pos_pow_of_pos _ (by decide)
    have hle : 2 ^ (Nat.log2 n - 52) ≤ n :=
      Nat.le_trans (Nat.pow_le_pow_right (by decide) (Nat.sub_le _ _)) (Nat.log2_self_le h)
    have hq : 0 < n / 2 ^ (Nat.log2 n - 52) := Nat.div_pos hle hu
    simp only []
    split_ifs
    · exact Nat.ne_of_gt (Nat.mul_pos hq hu)
    · exact Nat.ne_of_gt (Nat.mul_pos (Nat.succ_pos _) hu)
    · exact Nat.ne_of_gt (Nat.mul_pos hq hu)
    · exact Nat.ne_of_gt (Nat.mul_pos (Nat.succ_pos _) hu)

theorem tomorrowKeyNumber_eq (r : Response) (f : Fact) (t : Nat)
    (hf : r.fact = some f) (ht : f.today = some t) (ht0 : t ≠ 0) :
    tomorrowKeyNumber r = some (roundDouble (t + 86400)) := by
  unfold tomorrowKeyNumber
  rw [hf]
  simp only [Option.some_bind, ht]
  rw [if_neg ht0]

theorem tomorrowKeyNumber_ne_zero (r : Response) (n : Nat)
    (h : tomorrowKeyNumber r = some n) : n ≠ 0 := by
  unfold tomorrowKeyNumber at h
  split at h
  · cases h
  · rename_i today _
    split at h
    · cases h
    · have hn := Option.some.inj h
      rw [← hn]
      exact roundDouble_ne_zero _ (Nat.ne_of_gt (Nat.lt_of_lt_of_le (Nat.succ_pos _)
        (Nat.le_add_left 86400 today)))

theorem tomorrowIntervals_eq (r : Response) (queue : String) (dayData : DayData)
    (hourMap : HourMap) (htd : tomorrowData r = some dayData)
    (hq : dayData queue = some hourMap) :
    tomorrowIntervals r queue = mergeIntervals (buildTimeline hourMap) := by
  cases hk : tomorrowKeyNumber r with
  | none =>
    unfold tomorrowData at htd
    rw [hk] at htd
    cases htd
  | some n =>
    simp only [tomorrowIntervals, hk, htd, hq]
    exact parse_tomorrowResponse n queue hourMap (tomorrowKeyNumber_ne_zero r n hk)

theorem tomorrowData_explicit (r : Response) (f : Fact) (t : Nat)
    (data : JsObject DayData) (found : Option DayData)
    (hf : r.fact = some f) (ht : f.today = some t) (ht0 : t ≠ 0) (hd : f.data = some data)
    (hday : data (toString (roundDouble (t + 86400))) = found) :
    tomorrowData r = found := by
  unfold tomorrowData
  rw [tomorrowKeyNumber_eq r f t hf ht ht0, hf]
  simp only [Option.some_bind, hd, hday]

theorem tomorrowData_some (r : Response) (dayData : DayData)
    (h : tomorrowData r = some dayData) :
    ∃ f data key, r.fact = some f ∧ f.data = some data ∧ data key = some dayData := by
  unfold tomorrowData at h
  cases hk : tomorrowKeyNumber r with
  | none => rw [hk] at h; cases h
  | some n =>
    rw [hk] at h
    cases hf : r.fact with
    | none => simp [hf] at h
    | some f =>
      cases hd : f.data with
      | none => simp [hf, hd] at h
      | some data =>
        simp only [hf, Option.some_bind, hd] at h
        exact ⟨f, data, toString n, rfl, hd, h⟩

/-- C19, as amended: `getQueueFromGraph` returns the placeholder "Невідомо" whenever the
house entry is absent or its `sub_type_reason` is absent or empty, and otherwise the queue
identifiers joined by ", "; the lookups of today and of tomorrow return a list for every
queue, and with the placeholder as queue they return the empty list whenever no per-day
structure of the payload has an hour map under the key "Невідомо". -/
theorem placeholder_queue (HOUSE : String) (info : Option Response) :
    ((info.bind (fun r => r.data)).bind (fun d => d HOUSE) = none →
      getQueueFromGraph HOUSE info = "Невідомо") ∧
    (∀ h, (info.bind (fun r => r.data)).bind (fun d => d HOUSE) = some h →
      h.sub_type_reason = none ∨ h.sub_type_reason = some [] →
      getQueueFromGraph HOUSE info = "Невідомо") ∧
    (∀ h reasons, (info.bind (fun r => r.data)).bind (fun d => d HOUSE) = some h →
      h.sub_type_reason = some reasons → reasons ≠ [] →
      getQueueFromGraph HOUSE info = String.intercalate ", " reasons) ∧
    (∀ (r : Response) (queue : String),
      ∃ a b, parseScheduleIntervals (some r) queue = some a ∧
        tomorrowIntervals r queue = some b) ∧
    (∀ r : Response,
      (∀ f data key dayData, r.fact = some f → f.data = some data →
        data key = some dayData → dayData "Невідомо" = none) →
      parseScheduleIntervals (some r) "Невідомо" = some [] ∧
      tomorrowIntervals r "Невідомо" = some []) := by
  refine ⟨?_, ?_, ?_, ?_, ?_⟩
  · intro h
    unfold getQueueFromGraph
    simp only [h, Option.none_bind]
  · intro h hh hs
    unfold getQueueFromGraph
    rcases hs with hs | hs <;> simp [hh, hs]
  · intro h reasons hh hs hne
    unfold getQueueFromGraph
    simp [hh, hs, hne]
  · intro r queue
    obtain ⟨a, ha⟩ := parseScheduleIntervals_total (some r) queue
    have hb : ∃ b, tomorrowIntervals r queue = some b := by
      unfold tomorrowIntervals
      split
      · split
        · exact parseScheduleIntervals_total _ _
        · exact ⟨[], rfl⟩
      · exact ⟨[], rfl⟩
    obtain ⟨b, hb⟩ := hb
    exact ⟨a, b, ha, hb⟩
  · intro r hno
    constructor
    · apply parse_of_lookup_none
      unfold lookupHourMap
      cases hf : r.fact with
      | none => simp only [hf]
      | some f =>
        cases ht : f.today with
        | none => simp only [hf, ht]
        | some t =>
          cases hd : f.data with
          | none => simp only [hf, ht, hd]; split <;> rfl
          | some data =>
            cases hday : data (toString t) with
            | none => simp only [hf, ht, hd, hday]; split <;> rfl
            | some dayData =>
              simp only [hf, ht, hd, hday, hno f data (toString t) dayData hf hd hday]
              split <;> rfl
    · unfold tomorrowIntervals
      cases hk : tomorrowKeyNumber r with
      | none => rfl
      | some n =>
        cases htd : tomorrowData r with
        | none => rfl
        | some dayData =>
          obtain ⟨f, data, key, hf, hd, hday⟩ := tomorrowData_some r dayData htd
          simp only [hno f data key dayData hf hd hday]

/-- Counterexample to C19 as stated: the sample payload has no house entry, so the queue
is the placeholder, and its day of today has an hour map under the key "Невідомо": the
lookup of today returns an interval. -/
theorem placeholder_queue_counterexample :
    getQueueFromGraph "12" (some samplePlaceholderQueue) = "Невідомо" ∧
    parseScheduleIntervals (some samplePlaceholderQueue) "Невідомо" =
      some [{ start := "00:00", «end» := "24:00", type := .off }] := by
  decide

/-! ## Coverage: the intervals and the outage slots -/

theorem slotOf_fmt_fin : ∀ i : Fin 49, slotOf (fmt i) = i := by
  decide

theorem slotOf_fmt (i : Nat) (hi : i ≤ 48) : slotOf (fmt i) = i :=
  slotOf_fmt_fin ⟨i, by omega⟩

theorem range'_split (a m b : Nat) (h1 : a ≤ m) (h2 : m ≤ b) :
    List.range' a (b - a) = List.range' a (m - a) ++ List.range' m (b - m) := by
  have h := List.range'_append_1 a (m - a) (b - m)
  rw [show a + (m - a) = m by omega, show b - m + (m - a) = b - a by omega] at h
  exact h.symm

theorem run_unique (slots : List Slot) (kind : Slot) (i : Nat) (R : List (Nat × Nat))
    (l : RunList slots kind i R) (p q : Nat × Nat) (hp : p ∈ R) (hq : q ∈ R) (k : Nat)
    (hpk : p.1 ≤ k ∧ k < p.2) (hqk : q.1 ≤ k ∧ k < q.2) : p = q := by
  by_contra hne
  have hs : R.Pairwise (fun a b => a.2 ≤ b.1 ∨ b.2 ≤ a.1) :=
    l.ordered.imp (fun h => Or.inl h)
  have := hs.forall (fun a b h => h.symm) hp hq hne
  omega

theorem run_sum (slots : List Slot) (kind : Slot) :
    ∀ (R : List (Nat × Nat)) (i : Nat), i ≤ 48 → RunList slots kind i R →
      (R.map (fun p => p.2 - p.1)).sum =
        (List.range' i (48 - i)).countP (fun k => decide (slots[k]? = some kind)) := by
  intro R
  induction R with
  | nil =>
    intro i _ l
    symm
    rw [List.map_nil, List.sum_nil, List.countP_eq_zero]
    intro k hk hs
    rw [List.mem_range'_1] at hk
    obtain ⟨p, hp, _⟩ := l.complete k hk.1 (by omega) (by simpa using hs)
    cases hp
  | cons p R ih =>
    intro i hi l
    obtain ⟨hip, hse, he, hrun, _, _⟩ := l.runs p (List.mem_cons_self _ _)
    have hord := List.pairwise_cons.1 l.ordered
    have l2 : RunList slots kind p.2 R := by
      refine ⟨fun q hq => ⟨hord.1 q hq, (l.runs q (List.mem_cons_of_mem _ hq)).2⟩,
        hord.2, ?_⟩
      intro k hk1 hk2 hks
      obtain ⟨q, hq, hq1, hq2⟩ := l.complete k (by omega) hk2 hks
      rcases List.mem_cons.1 hq with rfl | hq
      · omega
      · exact ⟨q, hq, hq1, hq2⟩
    rw [List.map_cons, List.sum_cons, ih p.2 he l2, range'_split i p.1 48 hip (by omega),
      range'_split p.1 p.2 48 (by omega) he, List.countP_append, List.countP_append]
    have h0 : (List.range' i (p.1 - i)).countP
        (fun k => decide (slots[k]? = some kind)) = 0 := by
      rw [List.countP_eq_zero]
      intro k hk hs
      rw [List.mem_range'_1] at hk
      obtain ⟨q, hq, hq1, hq2⟩ := l.complete k hk.1 (by omega) (by simpa using hs)
      rcases List.mem_cons.1 hq with rfl | hq
      · omega
      · have := hord.1 q hq
        omega
    have h1 : (List.range' p.1 (p.2 - p.1)).countP
        (fun k => decide (slots[k]? = some kind)) = p.2 - p.1 := by
      have hlen : (List.range' p.1 (p.2 - p.1)).length = p.2 - p.1 := List.length_range' _ _ _
      have hall : (List.range' p.1 (p.2 - p.1)).countP
          (fun k => decide (slots[k]? = some kind)) =
            (List.range' p.1 (p.2 - p.1)).length := by
        rw [List.countP_eq_length]
        intro k hk
        rw [List.mem_range'_1] at hk
        simpa using hrun k hk.1 (by omega)
      rw [hall, hlen]
    rw [h0, h1]
    omega

theorem countP_or (l : List Nat) (p q : Nat → Bool) (h : ∀ x ∈ l, ¬ (p x = true ∧ q x = true)) :
    l.countP (fun x => p x || q x) = l.countP p + l.countP q := by
  induction l with
  | nil => rfl
  | cons x l ih =>
    have ih := ih (fun y hy => h y (List.mem_cons_of_mem _ hy))
    have hx := h x (List.mem_cons_self _ _)
    simp only [List.countP_cons, ih]
    cases hp : p x <;> cases hq : q x <;> simp_all <;> omega

theorem slotOf_toInterval (slots : List Slot) (kind : Slot) (i : Nat)
    (R : List (Nat × Nat)) (l : RunList slots kind i R) (p : Nat × Nat) (hp : p ∈ R) :
    slotOf (toInterval kind p).start = p.1 ∧ slotOf (toInterval kind p).«end» = p.2 := by
  obtain ⟨_, h1, h2, _⟩ := l.runs p hp
  exact ⟨slotOf_fmt p.1 (by omega), slotOf_fmt p.2 h2⟩

theorem cover_in_runs (slots : List Slot) (kind : Slot) (R : List (Nat × Nat))
    (l : RunList slots kind 0 R) (k : Nat) (hk : k < 48) (hs : slots[k]? = some kind) :
    ∃ p ∈ R, slotOf (toInterval kind p).start ≤ k ∧ k < slotOf (toInterval kind p).«end» ∧
      ∀ q ∈ R, slotOf (toInterval kind q).start ≤ k →
        k < slotOf (toInterval kind q).«end» → q = p := by
  obtain ⟨p, hp, hp1, hp2⟩ := l.complete k (Nat.zero_le _) hk hs
  obtain ⟨e1, e2⟩ := slotOf_toInterval slots kind 0 R l p hp
  refine ⟨p, hp, by omega, by omega, ?_⟩
  intro q hq hq1 hq2
  obtain ⟨f1, f2⟩ := slotOf_toInterval slots kind 0 R l q hq
  exact run_unique slots kind 0 R l q p hq hp k ⟨by omega, by omega⟩ ⟨hp1, hp2⟩

theorem not_cover_other (slots : List Slot) (kind other : Slot) (R : List (Nat × Nat))
    (l : RunList slots other 0 R) (hne : kind ≠ other) (k : Nat)
    (hs : slots[k]? = some kind) (q : Nat × Nat) (hq : q ∈ R) :
    ¬ (slotOf (toInterval other q).start ≤ k ∧ k < slotOf (toInterval other q).«end») := by
  intro h
  obtain ⟨f1, f2⟩ := slotOf_toInterval slots other 0 R l q hq
  obtain ⟨_, _, _, hrun, _⟩ := l.runs q hq
  have := hrun k (by omega) (by omega)
  rw [hs] at this
  exact hne (Option.some.inj this)

theorem runs_length_sum (slots : List Slot) (kind : Slot) (R : List (Nat × Nat))
    (l : RunList slots kind 0 R) :
    ((R.map (toInterval kind)).map (fun iv => slotOf iv.«end» - slotOf iv.start)).sum =
      (List.range 48).countP (fun k => decide (slots[k]? = some kind)) := by
  rw [List.range_eq_range', ← run_sum slots kind R 0 (by omega) l, List.map_map]
  congr 1
  apply List.map_congr_left
  intro p hp
  obtain ⟨e1, e2⟩ := slotOf_toInterval slots kind 0 R l p hp
  simp only [Function.comp_apply, e1, e2]

/-- C20: for every payload with the data of today present, every timeline slot whose
status is off or possible lies in exactly one returned interval, and that interval has the
status of the slot as its type; the returned list has no duplicates, and the number of
half-hour slots its intervals span is the number of off and possible slots. -/
theorem intervals_cover (response : Option Response) (scheduleId : String)
    (hourMap : HourMap) (hl : lookupHourMap response scheduleId = some hourMap) :
    ∃ ivs, parseScheduleIntervals response scheduleId = some ivs ∧ ivs.Nodup ∧
      (∀ k kind, k < 48 → (kind = .off ∨ kind = .possible) →
        (buildTimeline hourMap)[k]? = some kind →
        ∃ iv ∈ ivs, iv.type = kind ∧ slotOf iv.start ≤ k ∧ k < slotOf iv.«end» ∧
          ∀ other ∈ ivs, slotOf other.start ≤ k → k < slotOf other.«end» → other = iv) ∧
      (ivs.map (fun iv => slotOf iv.«end» - slotOf iv.start)).sum =
        (List.range 48).countP (fun k =>
          decide ((buildTimeline hourMap)[k]? = some .off) ||
          decide ((buildTimeline hourMap)[k]? = some .possible)) := by
  rcases parseScheduleIntervals_spec response scheduleId with
    ⟨hn, _⟩ | ⟨hm, Roff, Rposs, hl2, hparse, l1, l2⟩
  · rw [hl] at hn; cases hn
  rw [hl] at hl2
  cases hl2
  refine ⟨_, hparse, ?_, ?_, ?_⟩
  · have hstrict := sortByStart_strict _ (starts_distinct _ Roff Rposs l1 l2)
    unfold List.Nodup
    refine hstrict.imp ?_
    intro a b h he
    rw [he] at h
    exact jsLt_irrefl _ h
  · intro k kind hk hkind hs
    rcases hkind with rfl | rfl
    · obtain ⟨p, hp, hp1, hp2, huniq⟩ := cover_in_runs _ _ Roff l1 k hk hs
      refine ⟨toInterval .off p, ?_, rfl, hp1, hp2, ?_⟩
      · rw [mem_sortByStart]
        exact List.mem_append_left _ (List.mem_map_of_mem _ hp)
      · intro other ho ho1 ho2
        rw [mem_sortByStart] at ho
        rcases List.mem_append.1 ho with ho | ho
        · obtain ⟨q, hq, rfl⟩ := List.mem_map.1 ho
          rw [huniq q hq ho1 ho2]
        · obtain ⟨q, hq, rfl⟩ := List.mem_map.1 ho
          exact absurd ⟨ho1, ho2⟩ (not_cover_other _ .off .possible Rposs l2 (by decide) k hs q hq)
    · obtain ⟨p, hp, hp1, hp2, huniq⟩ := cover_in_runs _ _ Rposs l2 k hk hs
      refine ⟨toInterval .possible p, ?_, rfl, hp1, hp2, ?_⟩
      · rw [mem_sortByStart]
        exact List.mem_append_right _ (List.mem_map_of_mem _ hp)
      · intro other ho ho1 ho2
        rw [mem_sortByStart] at ho
        rcases List.mem_append.1 ho with ho | ho
        · obtain ⟨q, hq, rfl⟩ := List.mem_map.1 ho
          exact absurd ⟨ho1, ho2⟩ (not_cover_other _ .possible .off Roff l1 (by decide) k hs q hq)
        · obtain ⟨q, hq, rfl⟩ := List.mem_map.1 ho
          rw [huniq q hq ho1 ho2]
  · have hperm := (List.perm_insertionSort startLe
      (Roff.map (toInterval .off) ++ Rposs.map (toInterval .possible))).map
      (fun iv => slotOf iv.«end» - slotOf iv.start)
    unfold sortByStart
    rw [hperm.sum_eq, List.map_append, List.sum_append, runs_length_sum _ _ Roff l1,
      runs_length_sum _ _ Rposs l2]
    symm
    apply countP_or
    intro x _ h
    simp only [decide_eq_true_eq] at h
    rw [h.1] at h
    cases h.2

/-- Witness of C20 at the sample payload with "first", "second", then "yes": the two
intervals span two slots, the two off slots of the timeline. -/
theorem intervals_cover_witness :
    ∃ ivs, parseScheduleIntervals (some (samplePayload sampleFirstSecond)) "GPV5.1" =
        some ivs ∧
      (ivs.map (fun iv => slotOf iv.«end» - slotOf iv.start)).sum =
        (List.range 48).countP (fun k =>
          decide ((buildTimeline sampleFirstSecond)[k]? = some .off) ||
          decide ((buildTimeline sampleFirstSecond)[k]? = some .possible)) := by
  obtain ⟨ivs, h1, _, _, h4⟩ := intervals_cover (some (samplePayload sampleFirstSecond))
    "GPV5.1" sampleFirstSecond rfl
  exact ⟨ivs, h1, h4⟩

/-! ## generateMessage: the lines of the message -/

theorem formatScheduleIntervals_true_head (ivs : List Interval) :
    (formatScheduleIntervals (some ivs) true).data.head? = some '✅' ∨
    (formatScheduleIntervals (some ivs) true).data.head? = some '🪫' ∨
    (formatScheduleIntervals (some ivs) true).data.head? = some '❓' := by
  by_cases h : ∃ iv ∈ ivs, iv.type = .off ∨ iv.type = .possible
  · exact Or.inr (formatScheduleIntervals_head ivs h)
  · left
    rw [formatScheduleIntervals_no_lines ivs (fun iv hiv =>
      ⟨fun ht => h ⟨iv, hiv, Or.inl ht⟩, fun ht => h ⟨iv, hiv, Or.inr ht⟩⟩)]
    rfl

theorem formatScheduleIntervals_true_ne_empty (ivs : List Interval) :
    formatScheduleIntervals (some ivs) true ≠ "" := by
  rcases formatScheduleIntervals_true_head ivs with h | h | h <;>
    exact ne_empty_of_head _ _ h

theorem formatScheduleIntervals_true_ne_pending (ivs : List Interval) :
    formatScheduleIntervals (some ivs) true ≠
      "⏳ Графік на завтра ще не доступний (зазвичай з\x27являється ввечері)" ∧
    ∀ other, formatScheduleIntervals (some ivs) true ≠
      formatScheduleIntervals other false := by
  have hh := formatScheduleIntervals_true_head ivs
  constructor
  · intro he
    rw [he] at hh
    revert hh
    decide
  · intro other he
    rw [he, formatScheduleIntervals_false] at hh
    revert hh
    decide

theorem tomorrowIntervals_total (r : Response) (queue : String) :
    ∃ ivs, tomorrowIntervals r queue = some ivs := by
  unfold tomorrowIntervals
  split
  · split
    · exact parseScheduleIntervals_total _ _
    · exact ⟨[], rfl⟩
  · exact ⟨[], rfl⟩

theorem tomorrowText_of_data (r : Response) (queue : String) (dayData : DayData)
    (htd : tomorrowData r = some dayData) :
    ∃ ivs, tomorrowIntervals r queue = some ivs ∧
      tomorrowText r queue = some (formatScheduleIntervals (some ivs) true) := by
  obtain ⟨ivs, hivs⟩ := tomorrowIntervals_total r queue
  refine ⟨ivs, hivs, ?_⟩
  simp only [tomorrowText, hivs, htd, Option.isSome_some, if_true]

theorem tomorrowText_of_no_data (r : Response) (queue : String)
    (htd : tomorrowData r = none) :
    tomorrowText r queue =
      some "⏳ Графік на завтра ще не доступний (зазвичай з\x27являється ввечері)" := by
  have hti : tomorrowIntervals r queue = some [] := by
    unfold tomorrowIntervals
    rw [htd]
    cases tomorrowKeyNumber r <;> rfl
  simp only [tomorrowText, hti, htd]
  rfl

theorem tomorrowText_ne_empty (r : Response) (queue text : String)
    (h : tomorrowText r queue = some text) : text ≠ "" := by
  cases htd : tomorrowData r with
  | none =>
    rw [tomorrowText_of_no_data r queue htd] at h
    rw [← Option.some.inj h]
    decide
  | some dayData =>
    obtain ⟨ivs, _, h2⟩ := tomorrowText_of_data r queue dayData htd
    rw [h2] at h
    rw [← Option.some.inj h]
    exact formatScheduleIntervals_true_ne_empty ivs

theorem composeMessage_lines (env : Env) (queue todayText tomorrowText : String)
    (h1 : todayText ≠ "") (h2 : tomorrowText ≠ "") :
    composeMessage env queue todayText tomorrowText =
      String.intercalate "\n"
        [ "⚡️ <b>Статус електропостачання</b>",
          "🏠 <b>Адреса:</b> " ++ (env.CITY ++ ", " ++ env.STREET ++ ", " ++ env.HOUSE),
          "🔢 <b>Черга:</b> " ++ queue,
          String.mk (List.replicate 50 '═'),
          "📅 <b>Графік на сьогодні (" ++ env.todayLabel ++ "):</b>",
          todayText,
          String.mk (List.replicate 50 '═'),
          "📅 <b>Графік на завтра (" ++ env.tomorrowLabel ++ "):</b>",
          tomorrowText,
          String.mk (List.replicate 50 '═'),
          "🕐 <i>Оновлено: " ++ env.updateTime ++ "</i>" ] := by
  have a1 : "🏠 <b>Адреса:</b> " ++ (env.CITY ++ ", " ++ env.STREET ++ ", " ++ env.HOUSE) ≠ "" :=
    append_ne_empty _ _ (by decide)
  have a2 : "🔢 <b>Черга:</b> " ++ queue ≠ "" := append_ne_empty _ _ (by decide)
  have a3 : "📅 <b>Графік на сьогодні (" ++ env.todayLabel ++ "):</b>" ≠ "" :=
    append_ne_empty _ _ (append_ne_empty _ _ (by decide))
  have a4 : "📅 <b>Графік на завтра (" ++ env.tomorrowLabel ++ "):</b>" ≠ "" :=
    append_ne_empty _ _ (append_ne_empty _ _ (by decide))
  have a5 : "🕐 <i>Оновлено: " ++ env.updateTime ++ "</i>" ≠ "" :=
    append_ne_empty _ _ (append_ne_empty _ _ (by decide))
  have a6 : String.mk (List.replicate 50 '═') ≠ "" := by decide
  have a7 : "⚡️ <b>Статус електропостачання</b>" ≠ "" := by decide
  unfold composeMessage
  simp only [List.filter, a1, a2, a3, a4, a5, a6, a7, h1, h2, ne_eq, not_false_eq_true,
    decide_True, not_true_eq_false, decide_False]

theorem generateMessage_lines (env : Env) (r : Response) (houses : JsObject House)
    (hdata : r.data = some houses) (todayIntervals : List Interval) (text : String)
    (h1 : parseScheduleIntervals (some r) (getQueueFromGraph env.HOUSE (some r)) =
      some todayIntervals)
    (h2 : tomorrowText r (getQueueFromGraph env.HOUSE (some r)) = some text) :
    generateMessage env (some r) =
      some (.ok
        (String.intercalate "\n"
          [ "⚡️ <b>Статус електропостачання</b>",
            "🏠 <b>Адреса:</b> " ++ (env.CITY ++ ", " ++ env.STREET ++ ", " ++ env.HOUSE),
            "🔢 <b>Черга:</b> " ++ getQueueFromGraph env.HOUSE (some r),
            String.mk (List.replicate 50 '═'),
            "📅 <b>Графік на сьогодні (" ++ env.todayLabel ++ "):</b>",
            formatScheduleIntervals (some todayIntervals) true,
            String.mk (List.replicate 50 '═'),
            "📅 <b>Графік на завтра (" ++ env.tomorrowLabel ++ "):</b>",
            text,
            String.mk (List.replicate 50 '═'),
            "🕐 <i>Оновлено: " ++ env.updateTime ++ "</i>" ])) := by
  rw [generateMessage_eq env r houses hdata todayIntervals text h1 h2,
    composeMessage_lines env _ _ _ (formatScheduleIntervals_true_ne_empty todayIntervals)
      (tomorrowText_ne_empty r _ text h2)]

/-- C8, as amended: when the per-day structure of tomorrow exists (`tomorrowData`: the
entry of `fact.data` under the key `String(Number(today) + 86400)`, today truthy) but has
no hour map for the active queue, the tomorrow section of the message is the no-outages
message, not a pending message. Whenever that structure exists the section is
`formatScheduleIntervals` of the tomorrow intervals, never a pending text; when it is absent
the section is the pending text of `generateMessage`. -/
theorem tomorrow_day_without_queue (env : Env) (r : Response) (houses : JsObject House)
    (dayData : DayData) (hdata : r.data = some houses)
    (htd : tomorrowData r = some dayData)
    (hq : dayData (getQueueFromGraph env.HOUSE (some r)) = none) :
    tomorrowText r (getQueueFromGraph env.HOUSE (some r)) =
      some "✅ Відключень не заплановано" ∧
    (∃ todayIntervals,
      parseScheduleIntervals (some r) (getQueueFromGraph env.HOUSE (some r)) =
        some todayIntervals ∧
      generateMessage env (some r) =
        some (.ok
          (String.intercalate "\n"
          [ "⚡️ <b>Статус електропостачання</b>",
            "🏠 <b>Адреса:</b> " ++ (env.CITY ++ ", " ++ env.STREET ++ ", " ++ env.HOUSE),
            "🔢 <b>Черга:</b> " ++ getQueueFromGraph env.HOUSE (some r),
            String.mk (List.replicate 50 '═'),
            "📅 <b>Графік на сьогодні (" ++ env.todayLabel ++ "):</b>",
            formatScheduleIntervals (some todayIntervals) true,
            String.mk (List.replicate 50 '═'),
            "📅 <b>Графік на завтра (" ++ env.tomorrowLabel ++ "):</b>",
            "✅ Відключень не заплановано",
            String.mk (List.replicate 50 '═'),
            "🕐 <i>Оновлено: " ++ env.updateTime ++ "</i>" ]))) ∧
    "✅ Відключень не заплановано" ≠
      "⏳ Графік на завтра ще не доступний (зазвичай з\x27являється ввечері)" ∧
    (∀ ivs, "✅ Відключень не заплановано" ≠ formatScheduleIntervals ivs false) ∧
    (∀ (r2 : Response) (queue : String) (dayData2 : DayData),
      tomorrowData r2 = some dayData2 →
      ∃ ivs, tomorrowIntervals r2 queue = some ivs ∧
        tomorrowText r2 queue = some (formatScheduleIntervals (some ivs) true) ∧
        formatScheduleIntervals (some ivs) true ≠
          "⏳ Графік на завтра ще не доступний (зазвичай з\x27являється ввечері)" ∧
        ∀ other, formatScheduleIntervals (some ivs) true ≠
          formatScheduleIntervals other false) ∧
    (∀ (r2 : Response) (queue : String), tomorrowData r2 = none →
      tomorrowText r2 queue =
        some "⏳ Графік на завтра ще не доступний (зазвичай з\x27являється ввечері)") ∧
    (∀ (r2 : Response) (f : Fact) (t : Nat) (data : JsObject DayData),
      r2.fact = some f → f.today = some t → t ≠ 0 → t < 2 ^ 53 → f.data = some data →
      tomorrowData r2 = data (toString (roundDouble (t + 86400)))) := by
  have hti : tomorrowIntervals r (getQueueFromGraph env.HOUSE (some r)) = some [] := by
    cases hk : tomorrowKeyNumber r with
    | none =>
      unfold tomorrowData at htd
      rw [hk] at htd
      cases htd
    | some n => simp only [tomorrowIntervals, hk, htd, hq]
  have htext : tomorrowText r (getQueueFromGraph env.HOUSE (some r)) =
      some "✅ Відключень не заплановано" := by
    simp only [tomorrowText, hti, htd, Option.isSome_some, if_true]
    rfl
  refine ⟨htext, ?_, by decide, ?_, ?_, tomorrowText_of_no_data, ?_⟩
  · obtain ⟨ivs, hivs⟩ := parseScheduleIntervals_total (some r)
      (getQueueFromGraph env.HOUSE (some r))
    exact ⟨ivs, hivs, generateMessage_lines env r houses hdata ivs _ hivs htext⟩
  · intro ivs
    rw [formatScheduleIntervals_false]
    decide
  · intro r2 queue dayData2 htd2
    obtain ⟨ivs, h1, h2⟩ := tomorrowText_of_data r2 queue dayData2 htd2
    exact ⟨ivs, h1, h2, (formatScheduleIntervals_true_ne_pending ivs).1,
      (formatScheduleIntervals_true_ne_pending ivs).2⟩
  · intro r2 f t data hf ht ht0 _ hd
    exact tomorrowData_explicit r2 f t data _ hf ht ht0 hd rfl

/-- Witness of C8 as amended, at the sample payload whose next day has an hour map for
another queue only. -/
theorem tomorrow_day_without_queue_witness :
    tomorrowText sampleTomorrowOtherQueue
        (getQueueFromGraph sampleEnv.HOUSE (some sampleTomorrowOtherQueue)) =
      some "✅ Відключень не заплановано" :=
  (tomorrow_day_without_queue sampleEnv sampleTomorrowOtherQueue _ _ rfl rfl rfl).1

/-- Counterexample to C8 as stated: the sample payload has a per-day structure under the
day key of tomorrow, that structure has no hour map for the active queue GPV5.1, and the
tomorrow section is the no-outages message, not a pending message. -/
theorem tomorrow_day_without_queue_counterexample :
    getQueueFromGraph sampleEnv.HOUSE (some sampleTomorrowOtherQueue) = "GPV5.1" ∧
    (tomorrowData sampleTomorrowOtherQueue).isSome = true ∧
    ((tomorrowData sampleTomorrowOtherQueue).bind (fun d => d "GPV5.1")).isNone = true ∧
    tomorrowText sampleTomorrowOtherQueue "GPV5.1" = some "✅ Відключень не заплановано" ∧
    generateMessage sampleEnv (some sampleTomorrowOtherQueue) =
      some (.ok (String.intercalate "\n"
        [ "⚡️ <b>Статус електропостачання</b>",
          "🏠 <b>Адреса:</b> м. Київ, вул. Хрещатик, 12",
          "🔢 <b>Черга:</b> GPV5.1",
          "══════════════════════════════════════════════════",
          "📅 <b>Графік на сьогодні (06.11):</b>",
          "✅ Відключень не заплановано",
          "══════════════════════════════════════════════════",
          "📅 <b>Графік на завтра (07.11):</b>",
          "✅ Відключень не заплановано",
          "══════════════════════════════════════════════════",
          "🕐 <i>Оновлено: 10:00 06.11.2025</i>" ])) :=
  ⟨by decide, rfl, rfl, by decide, rfl⟩

/-- C9, as amended: when `fact.data` has no entry under the day key of tomorrow
(`tomorrowData` is absent: the key is `String(Number(today) + 86400)`), the tomorrow
section of the message is, verbatim, the pending text written in `generateMessage` itself;
it is not the text `formatScheduleIntervals` returns when `hasData` is false, and it is
never the no-outages message. -/
theorem tomorrow_day_absent (env : Env) (r : Response) (houses : JsObject House)
    (hdata : r.data = some houses) (htd : tomorrowData r = none) :
    tomorrowText r (getQueueFromGraph env.HOUSE (some r)) = some "⏳ Графік на завтра ще не доступний (зазвичай з\x27являється ввечері)" ∧
    (∃ todayIntervals,
      parseScheduleIntervals (some r) (getQueueFromGraph env.HOUSE (some r)) =
        some todayIntervals ∧
      generateMessage env (some r) =
        some (.ok
          (String.intercalate "\n"
          [ "⚡️ <b>Статус електропостачання</b>",
            "🏠 <b>Адреса:</b> " ++ (env.CITY ++ ", " ++ env.STREET ++ ", " ++ env.HOUSE),
            "🔢 <b>Черга:</b> " ++ getQueueFromGraph env.HOUSE (some r),
            String.mk (List.replicate 50 '═'),
            "📅 <b>Графік на сьогодні (" ++ env.todayLabel ++ "):</b>",
            formatScheduleIntervals (some todayIntervals) true,
            String.mk (List.replicate 50 '═'),
            "📅 <b>Графік на завтра (" ++ env.tomorrowLabel ++ "):</b>",
            "⏳ Графік на завтра ще не доступний (зазвичай з\x27являється ввечері)",
            String.mk (List.replicate 50 '═'),
            "🕐 <i>Оновлено: " ++ env.updateTime ++ "</i>" ]))) ∧
    (∀ ivs, "⏳ Графік на завтра ще не доступний (зазвичай з\x27являється ввечері)" ≠ formatScheduleIntervals ivs false) ∧
    "⏳ Графік на завтра ще не доступний (зазвичай з\x27являється ввечері)" ≠ "✅ Відключень не заплановано" ∧
    (∀ r2 : Response, r2.fact = none → tomorrowData r2 = none) ∧
    (∀ (r2 : Response) (f : Fact), r2.fact = some f →
      f.today = none ∨ f.today = some 0 → tomorrowData r2 = none) ∧
    (∀ (r2 : Response) (f : Fact) (t : Nat), r2.fact = some f → f.today = some t →
      f.data = none → tomorrowData r2 = none) ∧
    (∀ (r2 : Response) (f : Fact) (t : Nat) (data : JsObject DayData),
      r2.fact = some f → f.today = some t → t ≠ 0 → t < 2 ^ 53 → f.data = some data →
      data (toString (roundDouble (t + 86400))) = none → tomorrowData r2 = none) := by
  have htext := tomorrowText_of_no_data r (getQueueFromGraph env.HOUSE (some r)) htd
  refine ⟨htext, ?_, ?_, by decide, ?_, ?_, ?_, ?_⟩
  · obtain ⟨ivs, hivs⟩ := parseScheduleIntervals_total (some r)
      (getQueueFromGraph env.HOUSE (some r))
    exact ⟨ivs, hivs, generateMessage_lines env r houses hdata ivs _ hivs htext⟩
  · intro ivs
    rw [formatScheduleIntervals_false]
    decide
  · intro r2 hf
    simp [tomorrowData, tomorrowKeyNumber, hf]
  · intro r2 f hf ht
    rcases ht with ht | ht <;> simp [tomorrowData, tomorrowKeyNumber, hf, ht]
  · intro r2 f t hf ht hd
    by_cases h0 : t = 0
    · simp [tomorrowData, tomorrowKeyNumber, hf, ht, h0]
    · unfold tomorrowData
      rw [tomorrowKeyNumber_eq r2 f t hf ht h0, hf]
      simp only [Option.some_bind, hd, Option.none_bind]
  · intro r2 f t data hf ht ht0 _ hd hkey
    exact tomorrowData_explicit r2 f t data none hf ht ht0 hd hkey

/-- Witness of C9 as amended, at the sample payload that has the day of today only. -/
theorem tomorrow_day_absent_witness :
    tomorrowText sampleTodayOnly (getQueueFromGraph sampleEnv.HOUSE (some sampleTodayOnly)) =
      some "⏳ Графік на завтра ще не доступний (зазвичай з\x27являється ввечері)" :=
  (tomorrow_day_absent sampleEnv sampleTodayOnly _ rfl rfl).1

/-- Counterexample to C9 as stated: for the sample payload without the day of tomorrow,
the tomorrow section is not, verbatim, what `formatScheduleIntervals` returns when
`hasData` is false. -/
theorem tomorrow_day_absent_counterexample :
    (tomorrowData sampleTodayOnly).isNone = true ∧
    tomorrowText sampleTodayOnly "GPV5.1" = some "⏳ Графік на завтра ще не доступний (зазвичай з\x27являється ввечері)" ∧
    formatScheduleIntervals (some []) false =
      "⏳ Дані на наступний день будуть доступні пізніше" ∧
    tomorrowText sampleTodayOnly "GPV5.1" ≠ some (formatScheduleIntervals (some []) false) :=
  ⟨rfl, by decide, by decide, by decide⟩

/-- C13, as amended: `loadLastMessage` compares the two "en-CA" date strings as strings. A
stored record whose timestamp `d` (epoch seconds) is not zero and whose date string is
below the date string of now is deleted and `null` is returned, so that `sendNotification`
makes a `sendMessage` call without message id; a record with no timestamp, with timestamp
zero, or whose date string is not below that of now is returned unchanged and the files are
left untouched. -/
theorem stale_record_deleted (w : World) (now : Nat) (chatId : Option String)
    (files : Files) (last : LastMessage) (hfile : files (fileName chatId) = some last) :
    (∀ d, last.date = some d → d ≠ 0 →
      jsLt (w.kyivDate (d * 1000)) (w.kyivDate now) →
      loadLastMessage w.kyivDate now chatId files = (none, deleteLastMessage chatId files) ∧
      (deleteLastMessage chatId files) (fileName chatId) = none) ∧
    (∀ d, last.date = some d → d ≠ 0 →
      jsLt (w.kyivDate (d * 1000)) (w.kyivDate now) → chatId = none →
      ∀ run : Run, run.now = now → w.TELEGRAM_BOT_TOKEN ≠ "" → w.TELEGRAM_CHAT_ID ≠ "" →
        (sendNotification w run files).request =
          some { endpoint := .sendMessage, chat_id := w.TELEGRAM_CHAT_ID,
                 text := run.message, parse_mode := "HTML", message_id := none }) ∧
    ((∀ d, last.date = some d →
        d = 0 ∨ ¬ jsLt (w.kyivDate (d * 1000)) (w.kyivDate now)) →
      loadLastMessage w.kyivDate now chatId files = (some last, files)) := by
  have hstale : ∀ d, last.date = some d → d ≠ 0 →
      jsLt (w.kyivDate (d * 1000)) (w.kyivDate now) →
      loadLastMessage w.kyivDate now chatId files =
        (none, deleteLastMessage chatId files) := by
    intro d hd hd0 hlt
    unfold loadLastMessage
    rw [hfile]
    simp only [hd]
    rw [if_pos ⟨hd0, hlt⟩]
  refine ⟨fun d hd hd0 hlt => ⟨hstale d hd hd0 hlt, deleteLastMessage_absent chatId files⟩,
    ?_, ?_⟩
  · intro d hd hd0 hlt hchat run hnow ht hc
    subst hchat
    subst hnow
    rw [sendNotification_request w run files ht hc, hstale d hd hd0 hlt]
    rfl
  · intro hfresh
    unfold loadLastMessage
    rw [hfile]
    cases hd : last.date with
    | none => simp only [hd]
    | some d =>
      simp only [hd]
      rw [if_neg (fun h => (hfresh d hd).elim (fun h0 => h.1 h0) (fun hn => hn h.2))]

/-- Witness of C13 as amended: a record of 5 November 2025 is deleted on 6 November 2025 (Kyiv
time). -/
theorem stale_record_deleted_witness :
    (loadLastMessage sampleKyivDate 1762419600000 none
        (filesWith { message_id := some 70, date := some 1762340000 })).1 = none ∧
    (loadLastMessage sampleKyivDate 1762419600000 none
        (filesWith { message_id := some 70, date := some 1762340000 })).2
      "last-message.json" = none := by
  have h := ((stale_record_deleted sampleWorld 1762419600000 none
    (filesWith { message_id := some 70, date := some 1762340000 })
    { message_id := some 70, date := some 1762340000 } rfl).1
    1762340000 rfl (by decide) (by decide))
  exact ⟨congrArg Prod.fst h.1,
    (congrArg (fun p => p.2 "last-message.json") h.1).trans h.2⟩

/-- Counterexample to C13 as stated, in both directions, on 6 November 2025. A record with
timestamp 0, of 1 January 1970, a day before today, is returned and its file is kept: the
staleness test is skipped for a falsy `date`. A record with timestamp 253402300800, of
1 January 10000, a day after today, is deleted and `null` is returned: its date string
"10000-01-01" is below "2025-11-06" as a string. -/
theorem stale_record_deleted_counterexample :
    (sampleKyivDateEpoch (0 * 1000) = "1970-01-01" ∧
      sampleKyivDateEpoch 1762419600000 = "2025-11-06" ∧
      (loadLastMessage sampleKyivDateEpoch 1762419600000 none
          (filesWith { message_id := some 77, date := some 0 })).1 =
        some { message_id := some 77, date := some 0 } ∧
      (loadLastMessage sampleKyivDateEpoch 1762419600000 none
          (filesWith { message_id := some 77, date := some 0 })).2 "last-message.json" =
        some { message_id := some 77, date := some 0 }) ∧
    (1762419600000 < 253402300800 * 1000 ∧
      sampleKyivDateEpoch (253402300800 * 1000) = "10000-01-01" ∧
      jsLt "10000-01-01" "2025-11-06" ∧
      (loadLastMessage sampleKyivDateEpoch 1762419600000 none
          (filesWith { message_id := some 77, date := some 253402300800 })).1 = none ∧
      (loadLastMessage sampleKyivDateEpoch 1762419600000 none
          (filesWith { message_id := some 77, date := some 253402300800 })).2
        "last-message.json" = none) := by
  decide

/-- C17: `parseScheduleIntervals` returns the empty list whenever the payload is missing,
lacks `fact`, lacks `fact.today` (or has it falsy), lacks `fact.data`, has no per-day entry
under the key of today, or has no hour map for the queue under that entry;
`generateMessage` then renders the section of today as the no-outages message, which is not
a pending message. -/
theorem missing_today_data (r : Response) (scheduleId : String)
    (h : r.fact = none ∨
      (∃ f, r.fact = some f ∧ (f.today = none ∨ f.today = some 0)) ∨
      (∃ f, r.fact = some f ∧ f.data = none) ∨
      (∃ f t data, r.fact = some f ∧ f.today = some t ∧ t < 2 ^ 53 ∧
        f.data = some data ∧ data (toString t) = none) ∨
      (∃ f t data dayData, r.fact = some f ∧ f.today = some t ∧ t < 2 ^ 53 ∧
        f.data = some data ∧ data (toString t) = some dayData ∧
        dayData scheduleId = none)) :
    parseScheduleIntervals (some r) scheduleId = some [] ∧
    parseScheduleIntervals none scheduleId = some [] ∧
    (∀ (env : Env) (houses : JsObject House), r.data = some houses →
      scheduleId = getQueueFromGraph env.HOUSE (some r) →
      ∃ text, tomorrowText r scheduleId = some text ∧
        generateMessage env (some r) =
          some (.ok
            (String.intercalate "\n"
              [ "⚡️ <b>Статус електропостачання</b>",
                "🏠 <b>Адреса:</b> " ++ (env.CITY ++ ", " ++ env.STREET ++ ", " ++ env.HOUSE),
                "🔢 <b>Черга:</b> " ++ scheduleId,
                String.mk (List.replicate 50 '═'),
                "📅 <b>Графік на сьогодні (" ++ env.todayLabel ++ "):</b>",
                "✅ Відключень не заплановано",
                String.mk (List.replicate 50 '═'),
                "📅 <b>Графік на завтра (" ++ env.tomorrowLabel ++ "):</b>",
                text,
                String.mk (List.replicate 50 '═'),
                "🕐 <i>Оновлено: " ++ env.updateTime ++ "</i>" ]))) ∧
    formatScheduleIntervals (some []) true = "✅ Відключень не заплановано" ∧
    (∀ ivs, "✅ Відключень не заплановано" ≠ formatScheduleIntervals ivs false) ∧
    "✅ Відключень не заплановано" ≠
      "⏳ Графік на завтра ще не доступний (зазвичай з\x27являється ввечері)" := by
  have hl : lookupHourMap (some r) scheduleId = none := by
    unfold lookupHourMap
    rcases h with h | ⟨f, hf, ht⟩ | ⟨f, hf, hd⟩ | ⟨f, t, data, hf, ht, _, hd, hday⟩ |
      ⟨f, t, data, dayData, hf, ht, _, hd, hday, hq⟩
    · simp only [h]
    · rcases ht with ht | ht
      · simp only [hf, ht]
      · simp only [hf, ht, if_true]
    · simp only [hf, hd]
      cases f.today with
      | none => rfl
      | some t =>
        simp only
        split <;> rfl
    · simp only [hf, ht, hd, hday]
      split <;> rfl
    · simp only [hf, ht, hd, hday, hq]
      split <;> rfl
  have hp := parse_of_lookup_none (some r) scheduleId hl
  have hfmt : formatScheduleIntervals (some []) true = "✅ Відключень не заплановано" := by
    decide
  refine ⟨hp, rfl, ?_, hfmt, ?_, by decide⟩
  · intro env houses hdata hq
    subst hq
    obtain ⟨text, htext⟩ := tomorrowText_total r (getQueueFromGraph env.HOUSE (some r))
    have hg := generateMessage_lines env r houses hdata [] text hp htext
    rw [hfmt] at hg
    exact ⟨text, htext, hg⟩
  · intro ivs
    rw [formatScheduleIntervals_false]
    decide

/-- Witness of C17: the sample payload has no hour map for queue GPV9.9 today. -/
theorem missing_today_data_witness :
    parseScheduleIntervals (some (samplePayload sampleAllNo)) "GPV9.9" = some [] :=
  (missing_today_data (samplePayload sampleAllNo) "GPV9.9"
    (Or.inr (Or.inr (Or.inr (Or.inr
      ⟨_, 1762380000, _, _, rfl, rfl, by decide, rfl, rfl, rfl⟩))))).1

/-- C18: when the per-day structure of tomorrow (`tomorrowData`, the entry of `fact.data`
under the key `String(Number(today) + 86400)`) and the hour map of the queue under it both
exist, the tomorrow intervals of `generateMessage` are the result of the timeline builder
and the merger on that hour map alone: the list `parseScheduleIntervals` returns for any
payload and queue whose today key selects the same hour map, and the same for any other
payload with that hour map for the queue tomorrow, whatever its data of today and its other
queues. -/
theorem tomorrow_pipeline (r : Response) (queue : String) (dayData : DayData)
    (hourMap : HourMap) (htd : tomorrowData r = some dayData)
    (hq : dayData queue = some hourMap) :
    tomorrowIntervals r queue = mergeIntervals (buildTimeline hourMap) ∧
    (∀ response scheduleId, lookupHourMap response scheduleId = some hourMap →
      parseScheduleIntervals response scheduleId = tomorrowIntervals r queue) ∧
    (∀ (r2 : Response) (dayData2 : DayData),
      tomorrowData r2 = some dayData2 → dayData2 queue = some hourMap →
      tomorrowIntervals r2 queue = tomorrowIntervals r queue) ∧
    (∃ ivs, tomorrowIntervals r queue = some ivs ∧
      tomorrowText r queue = some (formatScheduleIntervals (some ivs) true)) ∧
    (∀ (r3 : Response) (f : Fact) (t : Nat) (data : JsObject DayData),
      r3.fact = some f → f.today = some t → t ≠ 0 → t < 2 ^ 53 → f.data = some data →
      data (toString (roundDouble (t + 86400))) = some dayData →
      tomorrowIntervals r3 queue = mergeIntervals (buildTimeline hourMap)) := by
  have h1 := tomorrowIntervals_eq r queue dayData hourMap htd hq
  refine ⟨h1, ?_, ?_, ?_, ?_⟩
  · intro response scheduleId hl
    rw [h1]
    unfold parseScheduleIntervals
    rw [hl]
  · intro r2 dayData2 htd2 hq2
    rw [h1, tomorrowIntervals_eq r2 queue dayData2 hourMap htd2 hq2]
  · obtain ⟨Roff, Rposs, hm, _, _⟩ := mergeIntervals_spec (buildTimeline hourMap)
    have h2 := h1.trans hm
    refine ⟨_, h2, ?_⟩
    simp only [tomorrowText, h2, htd, Option.isSome_some, if_true]
  · intro r3 f t data hf ht ht0 _ hd hday
    exact tomorrowIntervals_eq r3 queue dayData hourMap
      (tomorrowData_explicit r3 f t data (some dayData) hf ht ht0 hd hday) hq

/-- Witness of C18: the tomorrow intervals of the sample payload with both days are those
of its hour map of tomorrow: the two off half-hours. -/
theorem tomorrow_pipeline_witness :
    tomorrowIntervals sampleBothDays "GPV5.1" =
      some [{ start := "00:00", «end» := "00:30", type := .off },
            { start := "01:30", «end» := "02:00", type := .off }] :=
  (tomorrow_pipeline sampleBothDays "GPV5.1" _ sampleFirstSecond rfl rfl).1.trans
    (by decide)

end DtekMonitor
